import Mathlib

/-!
Verification development for the CPQ trace analyzer core.

The TypeScript source is shallowly embedded: JavaScript `Map`s become
insertion-ordered association lists over `String` keys, nullable fields
become `Option`, and every regular-expression match used by the source is
translated into an explicit deterministic scanning function (the patterns
involved never need backtracking beyond what is written out here).
Numeric trace values are kept as their source text, since no compared
property depends on float arithmetic.
-/

/-- JS `String.prototype.toUpperCase` restricted to the ASCII range used by the sources. -/
def jsUpper (s : String) : String := String.mk (s.toList.map Char.toUpper)

/-- JS `String.prototype.trim` (ASCII whitespace suffices for the traces involved). -/
def jsTrim (s : String) : String :=
  String.mk (((s.toList.dropWhile Char.isWhitespace).reverse.dropWhile Char.isWhitespace).reverse)

/-- Association-list lookup modelling `Map.get` (first binding wins; a real JS map has unique keys). -/
def sget {α : Type} : List (String × α) → String → Option α
  | [], _ => none
  | (k, v) :: t, key => if k = key then some v else sget t key

/-- Embedded `Map.set`: update the first binding in place, or append a new one. -/
def mapSet {α : Type} : List (String × α) → String → α → List (String × α)
  | [], key, v => [(key, v)]
  | (k, w) :: t, key, v => if k = key then (k, v) :: t else (k, w) :: mapSet t key v

/-- Embedded `Map.has`. -/
def mapHas {α : Type} (m : List (String × α)) (key : String) : Bool :=
  (sget m key).isSome

/-- Key list of an association map, in insertion order. -/
def mapKeys {α : Type} (m : List (String × α)) : List String := m.map Prod.fst

/-- Worker for `jsDedup`, carrying the set of keys already emitted. -/
def jsDedupGo : List String → List String → List String
  | _, [] => []
  | seen, x :: t =>
    if x ∈ seen then jsDedupGo seen t else x :: jsDedupGo (x :: seen) t

/-- JS `new Set(list)` iteration order: first occurrences, in encounter order. -/
def jsDedup (l : List String) : List String := jsDedupGo [] l

-- ============================================================
-- Expression parser (tokenizer + recursive descent), from the
-- expression-parser source file.
-- ============================================================

inductive TokenType where
  | STRING | NUMBER | BOOLEAN | NULL | IDENTIFIER | OPERATOR
  | LPAREN | RPAREN | LBRACE | RBRACE | LBRACKET | RBRACKET
  | COMMA | DOT | EOFTOK
deriving DecidableEq

def ttName : TokenType → String
  | .STRING => "STRING"
  | .NUMBER => "NUMBER"
  | .BOOLEAN => "BOOLEAN"
  | .NULL => "NULL"
  | .IDENTIFIER => "IDENTIFIER"
  | .OPERATOR => "OPERATOR"
  | .LPAREN => "LPAREN"
  | .RPAREN => "RPAREN"
  | .LBRACE => "LBRACE"
  | .RBRACE => "RBRACE"
  | .LBRACKET => "LBRACKET"
  | .RBRACKET => "RBRACKET"
  | .COMMA => "COMMA"
  | .DOT => "DOT"
  | .EOFTOK => "EOF"

structure Token where
  type : TokenType
  value : String
  position : Nat
deriving DecidableEq

def isIdentStart (c : Char) : Bool := c.isAlpha || c = '_'
def isIdentChar (c : Char) : Bool := c.isAlphanum || c = '_'

def twoCharOps : List String := ["!=", "<>", "<=", ">="]
def singleCharOps : List Char := ['=', '<', '>', '+', '-', '*', '/', '!']

/-- The tokenizer loop.  Fuel is an upper bound on the number of loop
iterations; every iteration consumes at least one character, so the
wrapper's fuel of `length + 1` never runs out. -/
def tokenizeGo : Nat → List Char → Nat → List Token
  | 0, _, pos => [⟨.EOFTOK, "", pos⟩]
  | _ + 1, [], pos => [⟨.EOFTOK, "", pos⟩]
  | fuel + 1, c :: rest, pos =>
    if c.isWhitespace then tokenizeGo fuel rest (pos + 1)
    else if c = '"' || c = '\'' then
      -- string literal: no escapes, first matching close quote ends it
      let body := rest.takeWhile (fun x => x ≠ c)
      ⟨.STRING, String.mk body, pos⟩ ::
        tokenizeGo fuel ((rest.drop body.length).drop 1) (pos + body.length + 2)
    else if c.isDigit || (c = '-' && (match rest with | d :: _ => d.isDigit | [] => false)) then
      if c = '-' then
        let digits := rest.takeWhile (fun x => x.isDigit || x = '.')
        ⟨.NUMBER, String.mk ('-' :: digits), pos⟩ ::
          tokenizeGo fuel (rest.drop digits.length) (pos + 1 + digits.length)
      else
        let digits := (c :: rest).takeWhile (fun x => x.isDigit || x = '.')
        ⟨.NUMBER, String.mk digits, pos⟩ ::
          tokenizeGo fuel ((c :: rest).drop digits.length) (pos + digits.length)
    else if rest ≠ [] && twoCharOps.contains (String.mk (c :: rest.take 1)) then
      ⟨.OPERATOR, String.mk (c :: rest.take 1), pos⟩ :: tokenizeGo fuel (rest.drop 1) (pos + 2)
    else if singleCharOps.contains c then
      ⟨.OPERATOR, String.mk [c], pos⟩ :: tokenizeGo fuel rest (pos + 1)
    else if c = '(' then ⟨.LPAREN, "(", pos⟩ :: tokenizeGo fuel rest (pos + 1)
    else if c = ')' then ⟨.RPAREN, ")", pos⟩ :: tokenizeGo fuel rest (pos + 1)
    else if c = '{' then ⟨.LBRACE, "\x7b", pos⟩ :: tokenizeGo fuel rest (pos + 1)
    else if c = '}' then ⟨.RBRACE, "\x7d", pos⟩ :: tokenizeGo fuel rest (pos + 1)
    else if c = '[' then ⟨.LBRACKET, "[", pos⟩ :: tokenizeGo fuel rest (pos + 1)
    else if c = ']' then ⟨.RBRACKET, "]", pos⟩ :: tokenizeGo fuel rest (pos + 1)
    else if c = ',' then ⟨.COMMA, ",", pos⟩ :: tokenizeGo fuel rest (pos + 1)
    else if c = '.' then ⟨.DOT, ".", pos⟩ :: tokenizeGo fuel rest (pos + 1)
    else if isIdentStart c then
      let tail := rest.takeWhile isIdentChar
      let word := String.mk (c :: tail)
      let up := jsUpper word
      let tok : Token :=
        if up = "TRUE" || up = "FALSE" then ⟨.BOOLEAN, up, pos⟩
        else if up = "NULL" then ⟨.NULL, "null", pos⟩
        else if up = "AND" || up = "OR" || up = "IN" || up = "NOTIN" || up = "NOT" then
          ⟨.OPERATOR, up, pos⟩
        else ⟨.IDENTIFIER, word, pos⟩
      tok :: tokenizeGo fuel (rest.drop tail.length) (pos + 1 + tail.length)
    else
      -- unknown character: silently skipped
      tokenizeGo fuel rest (pos + 1)

/-- Embedded `tokenize`: skips one leading `=`, then scans. -/
def tokenize (expression : String) : List Token :=
  let cs := expression.toList
  match cs with
  | '=' :: t => tokenizeGo (t.length + 1) t 1
  | _ => tokenizeGo (cs.length + 1) cs 0

inductive NodeType where
  | function | operator | var | literal | array | unary
deriving DecidableEq

/-- AST node (`type`, `value`, optional `children`, `raw`).  `children = none`
models the source leaving the field undefined on leaf nodes. -/
inductive ExpressionNode where
  | mk (type : NodeType) (value : String) (children : Option (List ExpressionNode))
       (raw : String)

def ExpressionNode.type : ExpressionNode → NodeType
  | .mk t _ _ _ => t
def ExpressionNode.value : ExpressionNode → String
  | .mk _ v _ _ => v
def ExpressionNode.children : ExpressionNode → Option (List ExpressionNode)
  | .mk _ _ c _ => c
def ExpressionNode.raw : ExpressionNode → String
  | .mk _ _ _ r => r

structure ParsedExpression where
  root : Option ExpressionNode
  original : String
  isValid : Bool
  error : Option String

def defaultTok : Token := ⟨.EOFTOK, "", 0⟩

/-- Embedded `Parser.current` (out-of-range positions yield a synthetic EOF). -/
def curTok (tk : List Token) (pos : Nat) : Token := tk.getD pos defaultTok

/-- Embedded `Parser.match` without a value constraint. -/
def matchTok (tk : List Token) (pos : Nat) (ty : TokenType) : Bool :=
  (curTok tk pos).type = ty

/-- Embedded `Parser.match` with a case-folded value constraint. -/
def matchTokV (tk : List Token) (pos : Nat) (ty : TokenType) (v : String) : Bool :=
  let t := curTok tk pos
  t.type = ty && jsUpper t.value = jsUpper v

def expectMsg (ty : TokenType) (v : Option String) (cur : Token) : String :=
  "Expected " ++ ttName ty ++
    (match v with
     | some s => if s = "" then "" else " '" ++ s ++ "'"
     | none => "") ++
    " but got " ++ ttName cur.type ++ " '" ++ cur.value ++ "'"

/-- Embedded `Parser.expect` (no value constraint is ever passed a value in the source). -/
def expectTok (tk : List Token) (pos : Nat) (ty : TokenType) :
    Except String (Token × Nat) :=
  if matchTok tk pos ty then .ok (curTok tk pos, pos + 1)
  else .error (expectMsg ty none (curTok tk pos))

def unexpectedMsg (t : Token) : String :=
  "Unexpected token: " ++ ttName t.type ++ " '" ++ t.value ++ "'"

def compOps : List String := ["=", "!=", "<>", "<", ">", "<=", ">="]

def joinRaw (l : List ExpressionNode) : String :=
  String.intercalate ", " (l.map ExpressionNode.raw)

mutual

/-- Embedded `parseOr`: lowest precedence. -/
def parseOrF : Nat → List Token → Nat → Except String (ExpressionNode × Nat)
  | 0, _, _ => .error "Parser fuel exhausted"
  | fuel + 1, tk, pos => do
    let (left, p) ← parseAndF fuel tk pos
    parseOrLoop fuel tk left p
termination_by structural fuel x0 x1 => fuel

def parseOrLoop : Nat → List Token → ExpressionNode → Nat →
    Except String (ExpressionNode × Nat)
  | 0, _, _, _ => .error "Parser fuel exhausted"
  | fuel + 1, tk, left, pos =>
    if matchTokV tk pos .OPERATOR "OR" then do
      let (right, p) ← parseAndF fuel tk (pos + 1)
      parseOrLoop fuel tk
        (.mk .operator "OR" (some [left, right]) (left.raw ++ " OR " ++ right.raw)) p
    else .ok (left, pos)
termination_by structural fuel x0 x1 x2 => fuel

def parseAndF : Nat → List Token → Nat → Except String (ExpressionNode × Nat)
  | 0, _, _ => .error "Parser fuel exhausted"
  | fuel + 1, tk, pos => do
    let (left, p) ← parseNotF fuel tk pos
    parseAndLoop fuel tk left p
termination_by structural fuel x0 x1 => fuel

def parseAndLoop : Nat → List Token → ExpressionNode → Nat →
    Except String (ExpressionNode × Nat)
  | 0, _, _, _ => .error "Parser fuel exhausted"
  | fuel + 1, tk, left, pos =>
    if matchTokV tk pos .OPERATOR "AND" then do
      let (right, p) ← parseNotF fuel tk (pos + 1)
      parseAndLoop fuel tk
        (.mk .operator "AND" (some [left, right]) (left.raw ++ " AND " ++ right.raw)) p
    else .ok (left, pos)
termination_by structural fuel x0 x1 x2 => fuel

def parseNotF : Nat → List Token → Nat → Except String (ExpressionNode × Nat)
  | 0, _, _ => .error "Parser fuel exhausted"
  | fuel + 1, tk, pos =>
    if matchTokV tk pos .OPERATOR "NOT" || matchTokV tk pos .OPERATOR "!" then do
      let (operand, p) ← parseNotF fuel tk (pos + 1)
      .ok (.mk .unary "NOT" (some [operand]) ("NOT " ++ operand.raw), p)
    else parseComparisonF fuel tk pos
termination_by structural fuel x0 x1 => fuel

def parseComparisonF : Nat → List Token → Nat → Except String (ExpressionNode × Nat)
  | 0, _, _ => .error "Parser fuel exhausted"
  | fuel + 1, tk, pos => do
    let (left, p) ← parseInNotInF fuel tk pos
    parseComparisonLoop fuel tk left p
termination_by structural fuel x0 x1 => fuel

def parseComparisonLoop : Nat → List Token → ExpressionNode → Nat →
    Except String (ExpressionNode × Nat)
  | 0, _, _, _ => .error "Parser fuel exhausted"
  | fuel + 1, tk, left, pos =>
    let t := curTok tk pos
    if t.type = TokenType.OPERATOR && compOps.contains t.value then do
      let (right, p) ← parseInNotInF fuel tk (pos + 1)
      parseComparisonLoop fuel tk
        (.mk .operator (if t.value = "<>" then "!=" else t.value) (some [left, right])
          (left.raw ++ " " ++ t.value ++ " " ++ right.raw)) p
    else .ok (left, pos)
termination_by structural fuel x0 x1 x2 => fuel

def parseInNotInF : Nat → List Token → Nat → Except String (ExpressionNode × Nat)
  | 0, _, _ => .error "Parser fuel exhausted"
  | fuel + 1, tk, pos => do
    let (left, p) ← parseAddSubF fuel tk pos
    parseInNotInLoop fuel tk left p
termination_by structural fuel x0 x1 => fuel

def parseInNotInLoop : Nat → List Token → ExpressionNode → Nat →
    Except String (ExpressionNode × Nat)
  | 0, _, _, _ => .error "Parser fuel exhausted"
  | fuel + 1, tk, left, pos =>
    if matchTokV tk pos .OPERATOR "IN" || matchTokV tk pos .OPERATOR "NOTIN" then
      let op := curTok tk pos
      do
        let (right, p) ← parseAddSubF fuel tk (pos + 1)
        parseInNotInLoop fuel tk
          (.mk .operator (jsUpper op.value) (some [left, right])
            (left.raw ++ " " ++ jsUpper op.value ++ " " ++ right.raw)) p
    else .ok (left, pos)
termination_by structural fuel x0 x1 x2 => fuel

def parseAddSubF : Nat → List Token → Nat → Except String (ExpressionNode × Nat)
  | 0, _, _ => .error "Parser fuel exhausted"
  | fuel + 1, tk, pos => do
    let (left, p) ← parseMulDivF fuel tk pos
    parseAddSubLoop fuel tk left p
termination_by structural fuel x0 x1 => fuel

def parseAddSubLoop : Nat → List Token → ExpressionNode → Nat →
    Except String (ExpressionNode × Nat)
  | 0, _, _, _ => .error "Parser fuel exhausted"
  | fuel + 1, tk, left, pos =>
    let t := curTok tk pos
    if t.type = TokenType.OPERATOR && (t.value = "+" || t.value = "-") then do
      let (right, p) ← parseMulDivF fuel tk (pos + 1)
      parseAddSubLoop fuel tk
        (.mk .operator t.value (some [left, right])
          (left.raw ++ " " ++ t.value ++ " " ++ right.raw)) p
    else .ok (left, pos)
termination_by structural fuel x0 x1 x2 => fuel

def parseMulDivF : Nat → List Token → Nat → Except String (ExpressionNode × Nat)
  | 0, _, _ => .error "Parser fuel exhausted"
  | fuel + 1, tk, pos => do
    let (left, p) ← parsePrimaryF fuel tk pos
    parseMulDivLoop fuel tk left p
termination_by structural fuel x0 x1 => fuel

def parseMulDivLoop : Nat → List Token → ExpressionNode → Nat →
    Except String (ExpressionNode × Nat)
  | 0, _, _, _ => .error "Parser fuel exhausted"
  | fuel + 1, tk, left, pos =>
    let t := curTok tk pos
    if t.type = TokenType.OPERATOR && (t.value = "*" || t.value = "/") then do
      let (right, p) ← parsePrimaryF fuel tk (pos + 1)
      parseMulDivLoop fuel tk
        (.mk .operator t.value (some [left, right])
          (left.raw ++ " " ++ t.value ++ " " ++ right.raw)) p
    else .ok (left, pos)
termination_by structural fuel x0 x1 x2 => fuel

def parsePrimaryF : Nat → List Token → Nat → Except String (ExpressionNode × Nat)
  | 0, _, _ => .error "Parser fuel exhausted"
  | fuel + 1, tk, pos =>
    let token := curTok tk pos
    if token.type = TokenType.LPAREN then do
      let (expr, p) ← parseOrF fuel tk (pos + 1)
      let (_, p2) ← expectTok tk p .RPAREN
      .ok (expr, p2)
    else if token.type = TokenType.LBRACE then parseArrayF fuel tk pos
    else if token.type = TokenType.STRING then
      .ok (.mk .literal ("\"" ++ token.value ++ "\"") none ("\"" ++ token.value ++ "\""),
        pos + 1)
    else if token.type = TokenType.NUMBER then
      .ok (.mk .literal token.value none token.value, pos + 1)
    else if token.type = TokenType.BOOLEAN then
      .ok (.mk .literal token.value none token.value, pos + 1)
    else if token.type = TokenType.NULL then
      .ok (.mk .literal "null" none "null", pos + 1)
    else if token.type = TokenType.IDENTIFIER then
      parseIdentOrFunc fuel tk pos
    else if token.type = TokenType.OPERATOR && token.value = "-" then do
      let (operand, p) ← parsePrimaryF fuel tk (pos + 1)
      .ok (.mk .unary "-" (some [operand]) ("-" ++ operand.raw), p)
    else .error (unexpectedMsg token)
termination_by structural fuel x0 x1 => fuel

def parseIdentOrFunc : Nat → List Token → Nat → Except String (ExpressionNode × Nat)
  | 0, _, _ => .error "Parser fuel exhausted"
  | fuel + 1, tk, pos =>
    let name := (curTok tk pos).value
    let p := pos + 1
    if matchTok tk p .LPAREN then do
      let (args, p2) ←
        if matchTok tk (p + 1) .RPAREN then .ok (([] : List ExpressionNode), p + 1)
        else do
          let (first, q) ← parseOrF fuel tk (p + 1)
          parseArgsLoop fuel tk [first] q
      let (_, p3) ← expectTok tk p2 .RPAREN
      .ok (.mk .function (jsUpper name) (some args)
        (name ++ "(" ++ joinRaw args ++ ")"), p3)
    else do
      let (nm, raw, p2) ← parseMemberLoop fuel tk name name p
      .ok (.mk .var nm none raw, p2)
termination_by structural fuel x0 x1 => fuel

def parseArgsLoop : Nat → List Token → List ExpressionNode → Nat →
    Except String (List ExpressionNode × Nat)
  | 0, _, _, _ => .error "Parser fuel exhausted"
  | fuel + 1, tk, args, pos =>
    if matchTok tk pos .COMMA then do
      let (next, p) ← parseOrF fuel tk (pos + 1)
      parseArgsLoop fuel tk (args ++ [next]) p
    else .ok (args, pos)
termination_by structural fuel x0 x1 x2 => fuel

def parseMemberLoop : Nat → List Token → String → String → Nat →
    Except String (String × String × Nat)
  | 0, _, _, _, _ => .error "Parser fuel exhausted"
  | fuel + 1, tk, name, raw, pos =>
    if matchTok tk pos .DOT then
      if matchTok tk (pos + 1) .IDENTIFIER then
        let prop := (curTok tk (pos + 1)).value
        parseMemberLoop fuel tk (name ++ "." ++ prop) (raw ++ "." ++ prop) (pos + 2)
      else parseMemberLoop fuel tk name raw (pos + 1)
    else if matchTok tk pos .LBRACKET then
      if matchTok tk (pos + 1) .STRING then do
        let key := (curTok tk (pos + 1)).value
        let (_, p) ← expectTok tk (pos + 2) .RBRACKET
        parseMemberLoop fuel tk (name ++ "[\"" ++ key ++ "\"]") (raw ++ "[\"" ++ key ++ "\"]") p
      else if matchTok tk (pos + 1) .IDENTIFIER then do
        let key := (curTok tk (pos + 1)).value
        let (_, p) ← expectTok tk (pos + 2) .RBRACKET
        parseMemberLoop fuel tk (name ++ "[" ++ key ++ "]") (raw ++ "[" ++ key ++ "]") p
      else if matchTok tk (pos + 1) .NUMBER then do
        let key := (curTok tk (pos + 1)).value
        let (_, p) ← expectTok tk (pos + 2) .RBRACKET
        parseMemberLoop fuel tk (name ++ "[" ++ key ++ "]") (raw ++ "[" ++ key ++ "]") p
      else do
        let (expr, p) ← parseOrF fuel tk (pos + 1)
        let (_, p2) ← expectTok tk p .RBRACKET
        parseMemberLoop fuel tk (name ++ "[" ++ expr.raw ++ "]")
          (raw ++ "[" ++ expr.raw ++ "]") p2
    else .ok (name, raw, pos)
termination_by structural fuel x0 x1 x2 x3 => fuel

def parseArrayF : Nat → List Token → Nat → Except String (ExpressionNode × Nat)
  | 0, _, _ => .error "Parser fuel exhausted"
  | fuel + 1, tk, pos => do
    let (_, p) ← expectTok tk pos .LBRACE
    let (elements, p2) ←
      if matchTok tk p .RBRACE then .ok (([] : List ExpressionNode), p)
      else do
        let (first, q) ← parseOrF fuel tk p
        parseElemsLoop fuel tk [first] q
    let (_, p3) ← expectTok tk p2 .RBRACE
    let er := joinRaw elements
    .ok (.mk .array ("\x7b" ++ er ++ "\x7d") (some elements) ("\x7b" ++ er ++ "\x7d"), p3)
termination_by structural fuel x0 x1 => fuel

def parseElemsLoop : Nat → List Token → List ExpressionNode → Nat →
    Except String (List ExpressionNode × Nat)
  | 0, _, _, _ => .error "Parser fuel exhausted"
  | fuel + 1, tk, elements, pos =>
    if matchTok tk pos .COMMA then
      if matchTok tk (pos + 1) .RBRACE then .ok (elements, pos + 1)
      else do
        let (next, p) ← parseOrF fuel tk (pos + 1)
        parseElemsLoop fuel tk (elements ++ [next]) p
    else .ok (elements, pos)
termination_by structural fuel x0 x1 x2 => fuel

end

/-- Embedded `Parser.parse`: `null` at EOF, otherwise one top-level OR-expression
(trailing tokens are not required to be consumed). -/
def parseTop (fuel : Nat) (tk : List Token) : Except String (Option ExpressionNode) :=
  if (curTok tk 0).type = TokenType.EOFTOK then .ok none
  else (parseOrF fuel tk 0).map (fun r => some r.1)

/-- The `try` body of `parseExpression`: tokenize then parse. -/
def parseInternal (expression : String) : Except String (Option ExpressionNode) :=
  let tk := tokenize expression
  parseTop (16 * (tk.length + 2)) tk

/-- Public entry point: catches every internal failure. -/
def parseExpression (expression : String) : ParsedExpression :=
  if expression = "" || jsTrim expression = "" || jsTrim expression = "=" then
    { root := none, original := expression, isValid := false,
      error := some "Empty expression" }
  else
    match parseInternal expression with
    | .ok root => { root := root, original := expression, isValid := root.isSome, error := none }
    | .error e => { root := none, original := expression, isValid := false, error := some e }

-- ============================================================
-- Trace parser: data model (from the trace-parser source file).
-- ============================================================

/-- Association map with `String` keys, in insertion order. -/
abbrev SMap (a : Type) : Type := List (String × a)

@[ext]
structure ConfigurationMetadata where
  instanceName : String
  application : String
  configurationId : String
  partNumber : String
  partNamespace : String
  configurationMode : String
  headerID : String
deriving DecidableEq

structure FeatureData where
  name : String
  caption : String
  selectedValue : Option String
  options : List String
  optionListId : Option String
  optionListGroup : Option String
  lineNumber : Nat
deriving DecidableEq

structure RuleStats where
  ruleId : String
  ruleName : String
  ruleType : String
  ruleset : String
  executionCount : Nat
deriving DecidableEq

structure RulesetSummary where
  name : String
  namespc : String
  executionCount : Nat
  rules : SMap RuleStats
deriving DecidableEq

structure RuleExecutionSummary where
  totalExecutions : Nat
  uniqueRules : Nat
  rulesets : SMap RulesetSummary
  topRules : List RuleStats
  ruleTypeBreakdown : SMap Nat
deriving DecidableEq

/-- A value in an integration-output row: string, number (kept as its source
text, see the header comment), or null. -/
inductive PropValue where
  | str (s : String)
  | num (s : String)
  | null
deriving DecidableEq

structure IntegrationOutputRow where
  id : String
  properties : SMap PropValue
  lineNumber : Nat
deriving DecidableEq

structure IntegrationTemplate where
  name : String
  columns : List String
  rows : List IntegrationOutputRow
deriving DecidableEq

structure IntegrationOutputSummary where
  templates : SMap IntegrationTemplate
  totalRows : Nat
deriving DecidableEq

structure VariableAssignment where
  variableName : String
  displayName : String
  assignmentExpression : String
  previousValue : Option String
  resultValue : Option String
  lineNumber : Nat
  ruleType : String
  ruleName : String
  ruleset : String
deriving DecidableEq

structure VariableSummary where
  name : String
  rawName : String
  assignments : List VariableAssignment
  finalValue : Option String
  assignmentCount : Nat
  firstAssignmentLine : Nat
  lastAssignmentLine : Nat
  hasChanges : Bool
deriving DecidableEq

structure VariableTrackingSummary where
  variablesMap : SMap VariableSummary
  totalAssignments : Nat
  uniqueVariables : Nat
deriving DecidableEq

structure ConditionEvaluation where
  ruleId : String
  ruleName : String
  ruleType : String
  ruleset : String
  expression : String
  trace : String
  result : Bool
  lineNumber : Nat
deriving DecidableEq

structure ConditionSummary where
  totalConditions : Nat
  firedCount : Nat
  skippedCount : Nat
  conditions : List ConditionEvaluation
deriving DecidableEq

structure RuleExecution where
  executionId : Nat
  ruleId : String
  ruleName : String
  ruleType : String
  ruleset : String
  lineNumber : Nat
  depth : Nat
  parentExecutionId : Option Nat
  childExecutionIds : List Nat
  durationStart : Nat
  durationEnd : Nat
deriving DecidableEq

structure Hotspot where
  startExecution : Nat
  endExecution : Nat
  ruleCount : Nat
  ruleset : String
deriving DecidableEq

structure RuleExecutionTimeline where
  executions : List RuleExecution
  totalExecutions : Nat
  maxDepth : Nat
  rulesetOrder : List String
  hotspots : List Hotspot
deriving DecidableEq

inductive IssueSeverity where
  | error | warning | info
deriving DecidableEq

inductive IssueCategory where
  | performance | logic | data | configuration
deriving DecidableEq

structure DetectedIssue where
  id : String
  severity : IssueSeverity
  category : IssueCategory
  title : String
  description : String
  lineNumber : Nat
  ctxRuleName : Option String
  ctxRuleset : Option String
  ctxVariableName : Option String
  ctxExpression : Option String
  ctxCount : Option Nat
deriving DecidableEq

structure IssuesSummary where
  issues : List DetectedIssue
  errorCount : Nat
  warningCount : Nat
  infoCount : Nat
deriving DecidableEq

structure ParsedTrace where
  metadata : ConfigurationMetadata
  features : SMap FeatureData
  rulesSummary : RuleExecutionSummary
  integrationOutputs : IntegrationOutputSummary
  variableTracking : VariableTrackingSummary
  conditionTracking : ConditionSummary
  issues : IssuesSummary
  timeline : RuleExecutionTimeline
  rulesExecuted : Nat
  rollbackPoints : Nat
  parseErrors : List String
deriving DecidableEq

-- ============================================================
-- Deterministic scanners for the regular expressions of the
-- trace parser.  Each one is written out as the unique way its
-- pattern can match (the character classes involved exclude the
-- following literal, so no backtracking is ever needed).
-- ============================================================

/-- Strip a literal from the front of a character list. -/
def dropLit : List Char → List Char → Option (List Char)
  | [], cs => some cs
  | _ :: _, [] => none
  | l :: lt, c :: ct => if c = l then dropLit lt ct else none

/-- Test whether a literal starts a character list. -/
def startsLit (lit : List Char) (cs : List Char) : Bool :=
  (dropLit lit cs).isSome

/-- Unanchored search: attempt the pattern at every start position, first
success wins (regex left-to-right search). -/
def scanFor {a : Type} (attempt : List Char → Option a) : List Char → Option a
  | [] => none
  | c :: t =>
    match attempt (c :: t) with
    | some v => some v
    | none => scanFor attempt t

/-- Capture of a tail pattern of the shape `\s+(.+)` (greedy whitespace run,
then at least one captured character; an all-whitespace tail of length two or
more backtracks to capture its last whitespace character). -/
def wsPlusTail (cs : List Char) : Option String :=
  let ws := cs.takeWhile Char.isWhitespace
  let rest := cs.dropWhile Char.isWhitespace
  if ws.isEmpty then none
  else if rest ≠ [] then some (String.mk rest)
  else if ws.length ≥ 2 then
    match ws.getLast? with
    | some c => some (String.mk [c])
    | none => none
  else none

/-- Capture of a tail pattern of the shape `\s*(.+)`. -/
def wsStarTail (cs : List Char) : Option String :=
  if cs.isEmpty then none
  else
    let rest := cs.dropWhile Char.isWhitespace
    if rest ≠ [] then some (String.mk rest)
    else
      match cs.getLast? with
      | some c => some (String.mk [c])
      | none => none

/-- Remainder after `^\s+NAME\s+:`, shared by the field patterns. -/
def fieldColon (name : String) (line : String) : Option (List Char) :=
  let cs := line.toList
  let ws1 := cs.takeWhile Char.isWhitespace
  let r1 := cs.dropWhile Char.isWhitespace
  if ws1.isEmpty then none
  else
    match dropLit name.toList r1 with
    | none => none
    | some r2 =>
      let ws2 := r2.takeWhile Char.isWhitespace
      let r3 := r2.dropWhile Char.isWhitespace
      if ws2.isEmpty then none
      else
        match r3 with
        | ':' :: r4 => some r4
        | _ => none

/-- Pattern `^\s+NAME\s+:\s+(.+)` (e.g. `Property`, `Variable`, `Assignment`,
`Previous`, `Result`, `Trace`). -/
def fieldTail (name : String) (line : String) : Option String :=
  (fieldColon name line).bind wsPlusTail

/-- Pattern `^\s+NAME\s+:\s+"([^"]+)"` (or `[^"]*` when `allowEmpty`). -/
def fieldQuoted (name : String) (allowEmpty : Bool) (line : String) : Option String :=
  match fieldColon name line with
  | none => none
  | some r =>
    let ws := r.takeWhile Char.isWhitespace
    let rest := r.dropWhile Char.isWhitespace
    if ws.isEmpty then none
    else
      match rest with
      | '"' :: r2 =>
        let body := r2.takeWhile (fun c => c ≠ '"')
        let after := r2.dropWhile (fun c => c ≠ '"')
        if after.isEmpty then none
        else if body.isEmpty && !allowEmpty then none
        else some (String.mk body)
      | _ => none

/-- Pattern `^\s+NAME\s+:\s+=(.+)` (`Expression`, `Condition Expression`). -/
def fieldEqTail (name : String) (line : String) : Option String :=
  match fieldColon name line with
  | none => none
  | some r =>
    let ws := r.takeWhile Char.isWhitespace
    let rest := r.dropWhile Char.isWhitespace
    if ws.isEmpty then none
    else
      match rest with
      | '=' :: r2 => if r2.isEmpty then none else some (String.mk r2)
      | _ => none

/-- Pattern `^\s+NAME\s+:\s+(True|False)` (`Result`, `Condition Result`). -/
def fieldBool (name : String) (line : String) : Option Bool :=
  match fieldColon name line with
  | none => none
  | some r =>
    let ws := r.takeWhile Char.isWhitespace
    let rest := r.dropWhile Char.isWhitespace
    if ws.isEmpty then none
    else if startsLit "True".toList rest then some true
    else if startsLit "False".toList rest then some false
    else none

/-- Pattern `^\s+Result\s+:\s+(\{.+\})` (greedy: up to the last brace). -/
def resultArrayCapture (line : String) : Option String :=
  match fieldColon "Result" line with
  | none => none
  | some r =>
    let ws := r.takeWhile Char.isWhitespace
    let rest := r.dropWhile Char.isWhitespace
    if ws.isEmpty then none
    else
      match rest with
      | '\x7b' :: r2 =>
        let rev := r2.reverse
        let afterLast := rev.dropWhile (fun c => c ≠ '\x7d')
        if afterLast.isEmpty then none
        else
          let body := afterLast.reverse
          if body.length ≥ 2 then some (String.mk ('\x7b' :: body)) else none
      | _ => none

/-- Pattern `^\s+Result\s+:\s+(-?\d+\.?\d*)`. -/
def resultNumberCapture (line : String) : Option String :=
  match fieldColon "Result" line with
  | none => none
  | some r =>
    let ws := r.takeWhile Char.isWhitespace
    let rest := r.dropWhile Char.isWhitespace
    if ws.isEmpty then none
    else
      let (neg, r2) := match rest with
        | '-' :: t => (true, t)
        | t => (false, t)
      let d1 := r2.takeWhile Char.isDigit
      if d1.isEmpty then none
      else
        let r3 := r2.drop d1.length
        let (dot, r4) := match r3 with
          | '.' :: t => (true, t)
          | t => (false, t)
        let d2 := r4.takeWhile Char.isDigit
        some (String.mk ((if neg then ['-'] else []) ++ d1 ++
          (if dot then ['.'] else []) ++ d2))

/-- Pattern `^\s+Result\s+:\s+(null|\{\}|\(unassigned\))`. -/
def resultNullTest (line : String) : Bool :=
  match fieldColon "Result" line with
  | none => false
  | some r =>
    let ws := r.takeWhile Char.isWhitespace
    let rest := r.dropWhile Char.isWhitespace
    if ws.isEmpty then false
    else startsLit "null".toList rest || startsLit "\x7b\x7d".toList rest ||
      startsLit "(unassigned)".toList rest

/-- Pattern `^\s+Value:\s*(.+)` (the selected-value line of a feature section). -/
def valueCapture (line : String) : Option String :=
  let cs := line.toList
  let ws1 := cs.takeWhile Char.isWhitespace
  let r1 := cs.dropWhile Char.isWhitespace
  if ws1.isEmpty then none
  else
    match dropLit "Value:".toList r1 with
    | none => none
    | some r2 => wsStarTail r2

/-- Pattern `^\s+Template:\s+(.+)$`. -/
def templateCapture (line : String) : Option String :=
  let cs := line.toList
  let ws1 := cs.takeWhile Char.isWhitespace
  let r1 := cs.dropWhile Char.isWhitespace
  if ws1.isEmpty then none
  else
    match dropLit "Template:".toList r1 with
    | none => none
    | some r2 => wsPlusTail r2

/-- Pattern `^\s*Screen Option:\s*(\S+)`. -/
def screenOptionCapture (line : String) : Option String :=
  let cs := line.toList
  let r1 := cs.dropWhile Char.isWhitespace
  match dropLit "Screen Option:".toList r1 with
  | none => none
  | some r2 =>
    let r3 := r2.dropWhile Char.isWhitespace
    let tok := r3.takeWhile (fun c => !c.isWhitespace)
    if tok.isEmpty then none else some (String.mk tok)

/-- Pattern `^\s+Property\s+:\s+RuleCondition` (test only). -/
def ruleConditionTest (line : String) : Bool :=
  match fieldColon "Property" line with
  | none => false
  | some r =>
    let ws := r.takeWhile Char.isWhitespace
    let rest := r.dropWhile Char.isWhitespace
    !ws.isEmpty && startsLit "RuleCondition".toList rest

/-- Pattern `^\s+Property\s+:` (the stop test used inside condition scans). -/
def propertyColonTest (line : String) : Bool :=
  let cs := line.toList
  let ws1 := cs.takeWhile Char.isWhitespace
  let r1 := cs.dropWhile Char.isWhitespace
  if ws1.isEmpty then false
  else
    match dropLit "Property".toList r1 with
    | none => false
    | some r2 =>
      let ws2 := r2.takeWhile Char.isWhitespace
      let r3 := r2.dropWhile Char.isWhitespace
      !ws2.isEmpty && (match r3 with | ':' :: _ => true | _ => false)

/-- Pattern `^-{10,}` (section divider). -/
def sectionDividerTest (line : String) : Bool :=
  (line.toList.takeWhile (fun c => c = '-')).length ≥ 10

/-- Worker for `lazyUntil`: the accumulator holds captured characters reversed. -/
def lazyUntilGo (stop : List Char) : List Char → List Char → Option (List Char)
  | acc, rest =>
    if startsLit stop rest then some acc.reverse
    else
      match rest with
      | [] => none
      | c :: t => lazyUntilGo stop (c :: acc) t

/-- Lazy capture `(.+?)` up to (excluding) the first occurrence of `stop`,
at least one character long. -/
def lazyUntil (stop : List Char) : List Char → Option (List Char)
  | [] => none
  | c :: t => lazyUntilGo stop [c] t

/-- Convert a digit run to a number (`parseInt` on a `\d+` capture). -/
def digitsToNat (l : List Char) : Nat :=
  l.foldl (fun n c => n * 10 + (c.toNat - '0'.toNat)) 0

/-- JS `String.prototype.toLowerCase` restricted to ASCII. -/
def jsLower (s : String) : String := String.mk (s.toList.map Char.toLower)

/-- Pattern `<InputParameters Instance="([^"]+)" Application="([^"]+)">`,
attempted at one position. -/
def instanceAttempt (cs : List Char) : Option (String × String) :=
  match dropLit "<InputParameters Instance=\"".toList cs with
  | none => none
  | some r1 =>
    let b1 := r1.takeWhile (fun c => c ≠ '"')
    if b1.isEmpty then none
    else
      match dropLit "\" Application=\"".toList (r1.drop b1.length) with
      | none => none
      | some r2 =>
        let b2 := r2.takeWhile (fun c => c ≠ '"')
        if b2.isEmpty then none
        else
          match dropLit "\">".toList (r2.drop b2.length) with
          | some _ => some (String.mk b1, String.mk b2)
          | none => none

/-- Unanchored `instancePattern` search. -/
def instanceMatch (line : String) : Option (String × String) :=
  scanFor instanceAttempt line.toList

/-- Pattern `<TAG>([^<]+)</TAG>`, attempted at one position. -/
def xmlTagAttempt (tag : String) (cs : List Char) : Option String :=
  match dropLit ("<" ++ tag ++ ">").toList cs with
  | none => none
  | some r1 =>
    let body := r1.takeWhile (fun c => c ≠ '<')
    if body.isEmpty then none
    else
      match dropLit ("</" ++ tag ++ ">").toList (r1.drop body.length) with
      | some _ => some (String.mk body)
      | none => none

/-- Unanchored `<TAG>([^<]+)</TAG>` search. -/
def xmlTagMatch (tag : String) (line : String) : Option String :=
  scanFor (xmlTagAttempt tag) line.toList

/-- Pattern `<ConfigurationID>(\d+)</ConfigurationID>`, attempted at one position. -/
def configIdAttempt (cs : List Char) : Option String :=
  match dropLit "<ConfigurationID>".toList cs with
  | none => none
  | some r1 =>
    let ds := r1.takeWhile Char.isDigit
    if ds.isEmpty then none
    else
      match dropLit "</ConfigurationID>".toList (r1.drop ds.length) with
      | some _ => some (String.mk ds)
      | none => none

/-- Unanchored `configIdPattern` search. -/
def configIdMatch (line : String) : Option String :=
  scanFor configIdAttempt line.toList

/-- Unanchored `Rollback point (\d+)` search; the capture is the digit run. -/
def rollbackCapture (line : String) : Option (List Char) :=
  scanFor
    (fun cs =>
      match dropLit "Rollback point ".toList cs with
      | none => none
      | some r =>
        let ds := r.takeWhile Char.isDigit
        if ds.isEmpty then none else some ds)
    line.toList

/-- Pattern `^(\d+) rules executed`. -/
def rulesExecutedCapture (line : String) : Option (List Char) :=
  let cs := line.toList
  let ds := cs.takeWhile Char.isDigit
  if ds.isEmpty then none
  else
    match dropLit " rules executed".toList (cs.drop ds.length) with
    | some _ => some ds
    | none => none

/-- Pattern `^Ruleset: (\S+) Rule: (\d+) (.+?) \(Ruleset:` — the shared firing
anchor.  Returns `(ruleset, ruleId, rawName)`; the name still carries the
surrounding spaces the lazy capture leaves, exactly as the source trims later. -/
def rulesetMatch (line : String) : Option (String × String × String) :=
  let cs := line.toList
  match dropLit "Ruleset: ".toList cs with
  | none => none
  | some r1 =>
    let tok := r1.takeWhile (fun c => !c.isWhitespace)
    if tok.isEmpty then none
    else
      match dropLit " Rule: ".toList (r1.drop tok.length) with
      | none => none
      | some r2 =>
        let ds := r2.takeWhile Char.isDigit
        if ds.isEmpty then none
        else
          match dropLit " ".toList (r2.drop ds.length) with
          | none => none
          | some r3 =>
            match lazyUntil " (Ruleset:".toList r3 with
            | some nm => some (String.mk tok, String.mk ds, String.mk nm)
            | none => none

/-- Whether a line matches the firing anchor (used as a stop predicate). -/
def rulesetTest (line : String) : Bool := (rulesetMatch line).isSome

/-- The nine type names of `parseRuleExecutions`/`parseVariableAssignments`
(note: no `ClearUserValueRule`). -/
def ruleTypeNames9 : List String :=
  ["ConditionRule", "VariableRule", "LoadRulesetRule", "CreateComponentRule",
   "CreateDynamicOptionListRule", "CreateDynamicOptionListGroupRule",
   "ScreenDisplayRule", "ForEachRule", "LoopRule"]

/-- The ten type names of `parseConditions`/`parseRuleExecutionTimeline`. -/
def ruleTypeNames10 : List String := ruleTypeNames9 ++ ["ClearUserValueRule"]

/-- An anchored alternation `^(N1|N2|...)`: the first name that starts the line. -/
def ruleTypeMatch (names : List String) (line : String) : Option String :=
  names.find? (fun n => startsLit n.toList line.toList)

/-- Embedded `parseVariableValue`: sentinels pass through, one layer of quotes is
removed via the pattern `^"(.*)"` (greedy, so up to the last quote). -/
def parseVariableValue (value : String) : String :=
  if value = "null" || value = "(unassigned)" then value
  else
    match value.toList with
    | '"' :: t =>
      let rev := t.reverse
      let after := rev.dropWhile (fun c => c ≠ '"')
      if after.isEmpty then value else String.mk (after.drop 1).reverse
    | _ => value

/-- Embedded `resolveVariableName`: `BASE[INDEX]` (full-line match of `^(\w+)\[(\w+)\]$`)
resolves through the running value table, otherwise the raw name is returned. -/
def resolveVariableName (rawName : String) (variableValues : SMap String) : String :=
  let cs := rawName.toList
  let base := cs.takeWhile isIdentChar
  if base.isEmpty then rawName
  else
    match cs.drop base.length with
    | '[' :: r2 =>
      let idx := r2.takeWhile isIdentChar
      if idx.isEmpty then rawName
      else
        match r2.drop idx.length with
        | [']'] =>
          let baseName := jsLower (String.mk base)
          let indexVar := jsLower (String.mk idx)
          match sget variableValues indexVar with
          | some v =>
            if v ≠ "" then baseName ++ "." ++ v
            else baseName ++ "[" ++ String.mk idx ++ "]"
          | none => baseName ++ "[" ++ String.mk idx ++ "]"
        | _ => rawName
    | _ => rawName

/-- Global `/"([^"]+)"/g` extraction (non-overlapping, restart after an empty
candidate's opening quote). -/
def scanQuotedGo : Nat → List Char → List String
  | 0, _ => []
  | fuel + 1, cs =>
    match cs with
    | [] => []
    | c :: t =>
      if c ≠ '"' then scanQuotedGo fuel t
      else
        let body := t.takeWhile (fun x => x ≠ '"')
        let rest := t.drop body.length
        if rest.isEmpty then []
        else if body.isEmpty then scanQuotedGo fuel t
        else String.mk body :: scanQuotedGo fuel (rest.drop 1)

/-- Embedded `parseOptionArray`: first `\{([^}]*)\}` group, then all quoted strings. -/
def parseOptionArray (arrayStr : String) : List String :=
  let cs := arrayStr.toList
  let afterBrace := cs.dropWhile (fun c => c ≠ '\x7b')
  match afterBrace with
  | _ :: t =>
    let content := t.takeWhile (fun c => c ≠ '\x7d')
    if (t.drop content.length).isEmpty then []
    else scanQuotedGo (content.length + 1) content
  | [] => []

/-- Indexed line access (in-bound accesses only, by construction of the windows). -/
def lineAt (lines : List String) (j : Nat) : String := lines.getD j ""

/-- A bounded forward scan: try `f` on `count` lines starting at index `j`. -/
def scanWindow {a : Type} (f : String → Option a) (lines : List String) :
    Nat → Nat → Option a
  | 0, _ => none
  | count + 1, j =>
    match f (lineAt lines j) with
    | some v => some v
    | none => scanWindow f lines count (j + 1)

/-- As `scanWindow`, also returning the index of the hit. -/
def scanWindowIdx {a : Type} (f : String → Option a) (lines : List String) :
    Nat → Nat → Option (Nat × a)
  | 0, _ => none
  | count + 1, j =>
    match f (lineAt lines j) with
    | some v => some (j, v)
    | none => scanWindowIdx f lines count (j + 1)

-- ============================================================
-- parseTrace PASS 1: Option List Group GUID -> options.
-- ============================================================

/-- One iteration of the PASS 1 loop at index `i`. -/
def pass1Step (lines : List String) (m : SMap (List String)) (i : Nat) (line : String) :
    SMap (List String) :=
  match fieldTail "Property" line with
  | some cap =>
    if jsTrim cap = "Group Name" then
      match scanWindow (fieldQuoted "Result" false) lines
          (min (i + 5) lines.length - (i + 1)) (i + 1) with
      | some groupGuid =>
        match scanWindowIdx
            (fun l =>
              match fieldTail "Property" l with
              | some c2 => if jsTrim c2 = "Group Values" then some () else none
              | none => none)
            lines (min (i + 10) lines.length - (i + 1)) (i + 1) with
        | some (j, _) =>
          match scanWindow resultArrayCapture lines
              (min (j + 5) lines.length - (j + 1)) (j + 1) with
          | some arr => mapSet m groupGuid (parseOptionArray arr)
          | none => m
        | none => m
      | none => m
    else m
  | none => m

/-- PASS 1 of `parseTrace`. -/
def buildGroupOptionsMap (lines : List String) : SMap (List String) :=
  lines.enum.foldl (fun m p => pass1Step lines m p.1 p.2) []

-- ============================================================
-- parseTrace PASS 2: metadata, counters, feature sections.
-- ============================================================

/-- Metadata updates of one PASS 2 iteration.  Only `partNumber` is guarded by
a first-match check (`!metadata.partNumber`); every other field is overwritten
on each later match. -/
def metadataStep (line : String) (m : ConfigurationMetadata) : ConfigurationMetadata :=
  let m := match instanceMatch line with
    | some (i, a) => { m with instanceName := i, application := a }
    | none => m
  let m := match configIdMatch line with
    | some v => { m with configurationId := v }
    | none => m
  let m := match xmlTagMatch "PartNumber" line with
    | some v => if m.partNumber = "" then { m with partNumber := v } else m
    | none => m
  let m := match xmlTagMatch "PartNamespace" line with
    | some v => { m with partNamespace := v }
    | none => m
  let m := match xmlTagMatch "ConfigurationMode" line with
    | some v => { m with configurationMode := v }
    | none => m
  match xmlTagMatch "HeaderID" line with
  | some v => { m with headerID := v }
  | none => m

/-- JS `val.replace(/^"|"$/g, '')`. -/
def stripEdgeQuotes (s : String) : String :=
  let cs := s.toList
  let cs1 := match cs with
    | '"' :: t => t
    | t => t
  match cs1.getLast? with
  | some '"' => String.mk cs1.dropLast
  | _ => String.mk cs1

/-- State accumulated by the look-ahead inside one feature section. -/
structure FeatureScanState where
  caption : String
  selectedValue : Option String
  optionListId : Option String
  optionListGroup : Option String
deriving DecidableEq

/-- The look-ahead of a `Screen Option` section: walks forward from the line
after the anchor until a section divider (or the end), collecting `Caption`,
`Option List Id` and `Option List Group` property values, and stopping at a
`Value:` line. -/
def featureScanGo (lines : List String) : Nat → Nat → FeatureScanState → FeatureScanState
  | 0, _, st => st
  | fuel + 1, j, st =>
    let sectionLine := lineAt lines j
    if sectionDividerTest sectionLine then st
    else
      let st' : FeatureScanState :=
        match fieldTail "Property" sectionLine with
        | some propRaw =>
          let propName := jsTrim propRaw
          if propName = "Caption" then
            match scanWindow
                (fun l =>
                  match fieldQuoted "Trace" false l with
                  | some v => some v
                  | none => fieldQuoted "Result" false l)
                lines (min (j + 4) lines.length - (j + 1)) (j + 1) with
            | some v => { st with caption := v }
            | none => st
          else if propName = "Option List Id" then
            match scanWindow (fieldQuoted "Result" false) lines
                (min (j + 4) lines.length - (j + 1)) (j + 1) with
            | some v => { st with optionListId := some v }
            | none => st
          else if propName = "Option List Group" then
            match scanWindow (fieldQuoted "Result" false) lines
                (min (j + 4) lines.length - (j + 1)) (j + 1) with
            | some v => { st with optionListGroup := some v }
            | none => st
          else st
        | none => st
      match valueCapture sectionLine with
      | some raw =>
        let val := jsTrim raw
        let sv : Option String :=
          if val = "null" || val = "(unassigned)" || val = "\"\"" || val = "" then none
          else some (stripEdgeQuotes val)
        { st' with selectedValue := sv }
      | none => featureScanGo lines fuel (j + 1) st'

/-- The mutable state of the PASS 2 loop. -/
structure Pass2State where
  metadata : ConfigurationMetadata
  features : SMap FeatureData
  rulesExecuted : Nat
  rollbackPoints : Nat
deriving DecidableEq

def emptyMetadata : ConfigurationMetadata :=
  { instanceName := "", application := "", configurationId := "", partNumber := "",
    partNamespace := "", configurationMode := "", headerID := "" }

/-- One iteration of the PASS 2 loop at index `i`. -/
def pass2Step (lines : List String) (gmap : SMap (List String)) (st : Pass2State)
    (i : Nat) (line : String) : Pass2State :=
  let md := metadataStep line st.metadata
  let rollbackPoints := match rollbackCapture line with
    | some ds => max st.rollbackPoints (digitsToNat ds)
    | none => st.rollbackPoints
  let rulesExecuted := match rulesExecutedCapture line with
    | some ds => digitsToNat ds
    | none => st.rulesExecuted
  let features := match screenOptionCapture line with
    | some featureName =>
      let fs := featureScanGo lines (lines.length - (i + 1)) (i + 1)
        { caption := featureName, selectedValue := none,
          optionListId := none, optionListGroup := none }
      let options : List String :=
        match fs.optionListGroup with
        | some g => if g ≠ "" then (sget gmap g).getD [] else []
        | none => []
      mapSet st.features featureName
        { name := featureName, caption := fs.caption, selectedValue := fs.selectedValue,
          options := options, optionListId := fs.optionListId,
          optionListGroup := fs.optionListGroup, lineNumber := i + 1 }
    | none => st.features
  { metadata := md, features := features,
    rulesExecuted := rulesExecuted, rollbackPoints := rollbackPoints }

/-- PASS 2 of `parseTrace`. -/
def runPass2 (lines : List String) (gmap : SMap (List String)) : Pass2State :=
  lines.enum.foldl (fun st p => pass2Step lines gmap st p.1 p.2)
    { metadata := emptyMetadata, features := [], rulesExecuted := 0, rollbackPoints := 0 }

-- ============================================================
-- Shared small utilities for the remaining sub-parsers.
-- ============================================================

/-- Digit characters of a number, most significant first. -/
def natDigits : Nat → Nat → List Char
  | 0, _ => []
  | fuel + 1, n =>
    if n < 10 then [Char.ofNat ('0'.toNat + n)]
    else natDigits fuel (n / 10) ++ [Char.ofNat ('0'.toNat + n % 10)]

/-- Decimal rendering of a natural number (kernel-reducible). -/
def natToStr (n : Nat) : String := String.mk (natDigits (n + 1) n)

/-- Insert `x` after every element it is not strictly before (`lt`),
so later elements land after equal ones: stability of JS `Array.sort`. -/
def insertStable {a : Type} (lt : a → a → Bool) (x : a) : List a → List a
  | [] => [x]
  | y :: t => if lt x y then x :: y :: t else y :: insertStable lt x t

/-- Stable sort by the strict-before relation `lt` (the unique stable result
any stable sorting algorithm, JS `Array.sort` included, produces). -/
def stableSortBy {a : Type} (lt : a → a → Bool) (l : List a) : List a :=
  l.foldl (fun acc x => insertStable lt x acc) []

/-- Substring containment (JS `String.prototype.includes`). -/
def strContains (s pat : String) : Bool :=
  (scanFor (fun cs => (dropLit pat.toList cs).map (fun _ => ())) s.toList).isSome

/-- First segment of `name.split('.')` (all that the source uses of the split). -/
def namespaceOf (s : String) : String :=
  String.mk (s.toList.takeWhile (fun c => c ≠ '.'))

/-- Split on `/\r?\n/` (worker; the accumulator holds the current line reversed). -/
def splitLinesGo : List Char → List Char → List String
  | acc, [] => [String.mk acc.reverse]
  | acc, '\n' :: t =>
    String.mk (match acc with
      | '\r' :: a => a.reverse
      | a => a.reverse) :: splitLinesGo [] t
  | acc, c :: t => splitLinesGo (c :: acc) t

/-- Split trace content on `/\r?\n/`. -/
def splitLines (s : String) : List String := splitLinesGo [] s.toList

-- ============================================================
-- parseRuleExecutions (rule execution aggregator).
-- ============================================================

/-- Loop state of `parseRuleExecutions`. -/
structure RuleExecState where
  rulesets : SMap RulesetSummary
  ruleTypeBreakdown : SMap Nat
  ruleExecutionCounts : SMap RuleStats
  totalExecutions : Nat
deriving DecidableEq

/-- One iteration of the `parseRuleExecutions` loop. -/
def ruleExecStep (lines : List String) (st : RuleExecState) (i : Nat) (line : String) :
    RuleExecState :=
  match rulesetMatch line with
  | none => st
  | some (rulesetName, ruleId, rawName) =>
    let ruleName := jsTrim rawName
    let ruleType :=
      if i + 1 < lines.length then
        (ruleTypeMatch ruleTypeNames9 (lineAt lines (i + 1))).getD "Unknown"
      else "Unknown"
    let namespc := namespaceOf rulesetName
    let rs := (sget st.rulesets rulesetName).getD
      { name := rulesetName, namespc := namespc, executionCount := 0, rules := [] }
    let ruleKey := rulesetName ++ ":" ++ ruleId
    let r := (sget rs.rules ruleKey).getD
      { ruleId := ruleId, ruleName := ruleName, ruleType := ruleType,
        ruleset := rulesetName, executionCount := 0 }
    let rs' := { rs with
      executionCount := rs.executionCount + 1,
      rules := mapSet rs.rules ruleKey { r with executionCount := r.executionCount + 1 } }
    let g := (sget st.ruleExecutionCounts ruleKey).getD
      { ruleId := ruleId, ruleName := ruleName, ruleType := ruleType,
        ruleset := rulesetName, executionCount := 0 }
    { rulesets := mapSet st.rulesets rulesetName rs',
      ruleTypeBreakdown := mapSet st.ruleTypeBreakdown ruleType
        ((sget st.ruleTypeBreakdown ruleType).getD 0 + 1),
      ruleExecutionCounts := mapSet st.ruleExecutionCounts ruleKey
        { g with executionCount := g.executionCount + 1 },
      totalExecutions := st.totalExecutions + 1 }

/-- Embedded `parseRuleExecutions`. -/
def parseRuleExecutions (lines : List String) : RuleExecutionSummary :=
  let st := lines.enum.foldl (fun st p => ruleExecStep lines st p.1 p.2)
    { rulesets := [], ruleTypeBreakdown := [], ruleExecutionCounts := [],
      totalExecutions := 0 }
  let topRules := (stableSortBy
    (fun a b => b.executionCount < a.executionCount)
    (st.ruleExecutionCounts.map Prod.snd)).take 20
  { totalExecutions := st.totalExecutions,
    uniqueRules := st.ruleExecutionCounts.length,
    rulesets := st.rulesets,
    topRules := topRules,
    ruleTypeBreakdown := st.ruleTypeBreakdown }

-- ============================================================
-- parseIntegrationOutputs.
-- ============================================================

/-- The inner value scan of an integration property (window of five lines,
stopped early by another property field or a section divider). -/
def integResultScan (lines : List String) : Nat → Nat → Option PropValue
  | 0, _ => none
  | count + 1, k =>
    let resultLine := lineAt lines k
    if (fieldTail "Property" resultLine).isSome || sectionDividerTest resultLine then none
    else
      match fieldQuoted "Result" true resultLine with
      | some s => some (.str s)
      | none =>
        match resultNumberCapture resultLine with
        | some n => some (.num n)
        | none =>
          if resultNullTest resultLine then some .null
          else integResultScan lines count (k + 1)

/-- Property collection over one `Template:` section (up to divider or end). -/
def integScanGo (lines : List String) : Nat → Nat → SMap PropValue × String →
    SMap PropValue × String
  | 0, _, acc => acc
  | fuel + 1, j, (props, outId) =>
    let sectionLine := lineAt lines j
    if sectionDividerTest sectionLine then (props, outId)
    else
      let acc :=
        match fieldTail "Property" sectionLine with
        | some capRaw =>
          let propName := jsTrim capRaw
          match integResultScan lines (min (j + 6) lines.length - (j + 1)) (j + 1) with
          | some pv =>
            let props' := mapSet props propName pv
            let outId' :=
              if propName = "IntegrationOutputID" then
                match pv with
                | .str s => s
                | .num n => n
                | .null => outId
              else outId
            (props', outId')
          | none => (props, outId)
        | none => (props, outId)
      integScanGo lines fuel (j + 1) acc

/-- Loop state of `parseIntegrationOutputs`. -/
structure IntegState where
  templates : SMap IntegrationTemplate
  totalRows : Nat
deriving DecidableEq

/-- One iteration of the `parseIntegrationOutputs` loop. -/
def integStep (lines : List String) (st : IntegState) (i : Nat) (line : String) :
    IntegState :=
  match templateCapture line with
  | none => st
  | some capRaw =>
    let templateName := jsTrim capRaw
    let lineNumber := i + 1
    let (props, outId) :=
      integScanGo lines (lines.length - (i + 1)) (i + 1) ([], "0")
    if props.length > 0 then
      let template := (sget st.templates templateName).getD
        { name := templateName, columns := [], rows := [] }
      let columns := props.foldl
        (fun cols p => if cols.contains p.1 then cols else cols ++ [p.1])
        template.columns
      { templates := mapSet st.templates templateName
          { template with
            columns := columns,
            rows := template.rows ++
              [{ id := outId, properties := props, lineNumber := lineNumber }] },
        totalRows := st.totalRows + 1 }
    else st

/-- Embedded `parseIntegrationOutputs`. -/
def parseIntegrationOutputs (lines : List String) : IntegrationOutputSummary :=
  let st := lines.enum.foldl (fun st p => integStep lines st p.1 p.2)
    { templates := [], totalRows := 0 }
  { templates := st.templates, totalRows := st.totalRows }

-- ============================================================
-- parseVariableAssignments (variable tracker).
-- ============================================================

/-- JS `rawName.replace(/\[.*\]/, '')`: remove from the first `[` through the
last `]` after it, when both exist. -/
def stripBracketPart (s : String) : String :=
  let cs := s.toList
  let before := cs.takeWhile (fun c => c ≠ '[')
  let rest := cs.drop before.length
  match rest with
  | '[' :: t =>
    let rev := t.reverse
    let afterLast := rev.dropWhile (fun c => c ≠ ']')
    if afterLast.isEmpty then s
    else String.mk (before ++ (rev.takeWhile (fun c => c ≠ ']')).reverse)
  | _ => s

/-- The bounded field scan after a `Variable :` line: collects `Assignment`,
`Previous` and `Result`, stopping at another variable line, a divider, a new
firing anchor, or after `Result`. -/
def varFieldScan (lines : List String) : Nat → Nat →
    String × Option String × Option String → String × Option String × Option String
  | 0, _, acc => acc
  | count + 1, j, (expr, prev, res) =>
    let nextLine := lineAt lines j
    if (fieldTail "Variable" nextLine).isSome || sectionDividerTest nextLine ||
        rulesetTest nextLine then
      (expr, prev, res)
    else
      let expr := match fieldTail "Assignment" nextLine with
        | some a => jsTrim a
        | none => expr
      let prev := match fieldTail "Previous" nextLine with
        | some p => some (parseVariableValue (jsTrim p))
        | none => prev
      match fieldTail "Result" nextLine with
      | some r => (expr, prev, some (parseVariableValue (jsTrim r)))
      | none => varFieldScan lines count (j + 1) (expr, prev, res)

/-- Loop state of the extraction phase of `parseVariableAssignments`. -/
structure VarScanState where
  assignments : List VariableAssignment
  variableValues : SMap String
  currentRuleset : String
  currentRuleName : String
  currentRuleType : String
deriving DecidableEq

/-- One iteration of the `parseVariableAssignments` extraction loop. -/
def varStep (lines : List String) (st : VarScanState) (i : Nat) (line : String) :
    VarScanState :=
  let st :=
    match rulesetMatch line with
    | some (ruleset, _, rawName) =>
      let ty :=
        if i + 1 < lines.length then
          match ruleTypeMatch ruleTypeNames9 (lineAt lines (i + 1)) with
          | some t => t
          | none => st.currentRuleType
        else st.currentRuleType
      { st with
        currentRuleset := ruleset, currentRuleName := jsTrim rawName,
        currentRuleType := ty }
    | none => st
  match fieldTail "Variable" line with
  | none => st
  | some capRaw =>
    let rawVariableName := jsTrim capRaw
    let (expr, prev, res) :=
      varFieldScan lines (min (i + 10) lines.length - (i + 1)) (i + 1) ("", none, none)
    let displayName := resolveVariableName rawVariableName st.variableValues
    let assignment : VariableAssignment :=
      { variableName := rawVariableName, displayName := displayName,
        assignmentExpression := expr, previousValue := prev, resultValue := res,
        lineNumber := i + 1, ruleType := st.currentRuleType,
        ruleName := st.currentRuleName, ruleset := st.currentRuleset }
    let values :=
      match res with
      | some rv =>
        let v1 := mapSet st.variableValues (jsLower rawVariableName) rv
        let simpleName := jsLower (stripBracketPart rawVariableName)
        if mapHas v1 simpleName then v1 else mapSet v1 simpleName rv
      | none => st.variableValues
    { st with assignments := st.assignments ++ [assignment], variableValues := values }

/-- Whether one assignment records a genuine change (the body of the source's
`hasChanges` update). -/
def changePred (assignment : VariableAssignment) : Bool :=
  match assignment.previousValue, assignment.resultValue with
  | some p, some r => p ≠ r && p ≠ "(unassigned)"
  | _, _ => false

/-- One step of the grouping fold of `parseVariableAssignments`. -/
def groupStep (m : SMap VariableSummary) (assignment : VariableAssignment) :
    SMap VariableSummary :=
  let key := assignment.displayName
  let s := (sget m key).getD
    { name := assignment.displayName, rawName := assignment.variableName,
      assignments := [], finalValue := none, assignmentCount := 0,
      firstAssignmentLine := assignment.lineNumber,
      lastAssignmentLine := assignment.lineNumber, hasChanges := false }
  mapSet m key
    { s with
      assignments := s.assignments ++ [assignment],
      assignmentCount := s.assignmentCount + 1,
      lastAssignmentLine := assignment.lineNumber,
      finalValue := assignment.resultValue,
      hasChanges := s.hasChanges || changePred assignment }

/-- The grouping fold of `parseVariableAssignments`: one summary per display
name, aggregated in encounter order. -/
def groupAssignments (assignments : List VariableAssignment) : SMap VariableSummary :=
  assignments.foldl groupStep []

/-- Embedded `parseVariableAssignments`. -/
def parseVariableAssignments (lines : List String) : VariableTrackingSummary :=
  let st := lines.enum.foldl (fun st p => varStep lines st p.1 p.2)
    { assignments := [], variableValues := [], currentRuleset := "",
      currentRuleName := "", currentRuleType := "" }
  let variablesMap := groupAssignments st.assignments
  { variablesMap := variablesMap,
    totalAssignments := st.assignments.length,
    uniqueVariables := variablesMap.length }

-- ============================================================
-- parseConditions (condition tracker).
-- ============================================================

/-- The bounded scan after a `Property : RuleCondition` line: collects
`Expression`, `Trace` and a boolean `Result`, stopping at another property
field, a divider, a new firing anchor, or after the result. -/
def condScan (lines : List String) : Nat → Nat →
    String × String × Option Bool → String × String × Option Bool
  | 0, _, acc => acc
  | count + 1, j, (expression, trace, result) =>
    let nextLine := lineAt lines j
    if propertyColonTest nextLine || sectionDividerTest nextLine ||
        rulesetTest nextLine then
      (expression, trace, result)
    else
      let expression := match fieldEqTail "Expression" nextLine with
        | some e => "=" ++ jsTrim e
        | none => expression
      let trace := match fieldTail "Trace" nextLine with
        | some t => jsTrim t
        | none => trace
      match fieldBool "Result" nextLine with
      | some b => (expression, trace, some b)
      | none => condScan lines count (j + 1) (expression, trace, result)

/-- Loop state of `parseConditions`. -/
structure CondScanState where
  conditions : List ConditionEvaluation
  currentRuleset : String
  currentRuleId : String
  currentRuleName : String
  currentRuleType : String
  currentRuleLineNumber : Nat
deriving DecidableEq

/-- One iteration of the `parseConditions` loop. -/
def condStep (lines : List String) (st : CondScanState) (i : Nat) (line : String) :
    CondScanState :=
  let st :=
    match rulesetMatch line with
    | some (ruleset, ruleId, rawName) =>
      let ty :=
        if i + 1 < lines.length then
          match ruleTypeMatch ruleTypeNames10 (lineAt lines (i + 1)) with
          | some t => t
          | none => st.currentRuleType
        else st.currentRuleType
      { st with
        currentRuleset := ruleset, currentRuleId := ruleId,
        currentRuleName := jsTrim rawName, currentRuleType := ty,
        currentRuleLineNumber := i + 1 }
    | none => st
  let st :=
    if ruleConditionTest line then
      let (expression, trace, result) :=
        condScan lines (min (i + 15) lines.length - (i + 1)) (i + 1) ("", "", none)
      match result with
      | some b =>
        if expression ≠ "" then
          { st with conditions := st.conditions ++
            [{ ruleId := st.currentRuleId, ruleName := st.currentRuleName,
               ruleType := st.currentRuleType, ruleset := st.currentRuleset,
               expression := expression, trace := trace, result := b,
               lineNumber := i + 1 }] }
        else st
      | none => st
    else st
  match fieldEqTail "Condition Expression" line with
  | some e =>
    if st.currentRuleType = "VariableRule" then
      let expression := "=" ++ jsTrim e
      match scanWindow (fieldBool "Condition Result") lines
          (min (i + 5) lines.length - (i + 1)) (i + 1) with
      | some b =>
        { st with conditions := st.conditions ++
          [{ ruleId := st.currentRuleId, ruleName := st.currentRuleName,
             ruleType := st.currentRuleType, ruleset := st.currentRuleset,
             expression := expression, trace := "", result := b,
             lineNumber := i + 1 }] }
      | none => st
    else st
  | none => st

/-- Embedded `parseConditions`. -/
def parseConditions (lines : List String) : ConditionSummary :=
  let st := lines.enum.foldl (fun st p => condStep lines st p.1 p.2)
    { conditions := [], currentRuleset := "", currentRuleId := "",
      currentRuleName := "", currentRuleType := "", currentRuleLineNumber := 0 }
  let conditions := st.conditions
  { totalConditions := conditions.length,
    firedCount := (conditions.filter (fun c => c.result)).length,
    skippedCount := (conditions.filter (fun c => !c.result)).length,
    conditions := conditions }

-- ============================================================
-- parseRuleExecutionTimeline (timeline builder).
-- ============================================================

/-- Append a child id to the first execution with the given id
(the source's `executions.find(...)` followed by a push). -/
def pushChild : List RuleExecution → Nat → Nat → List RuleExecution
  | [], _, _ => []
  | e :: t, pid, cid =>
    if e.executionId = pid then
      { e with childExecutionIds := e.childExecutionIds ++ [cid] } :: t
    else e :: pushChild t pid cid

/-- Loop state of `parseRuleExecutionTimeline`.  The stack is kept bottom
first, exactly like the source's array. -/
structure TimelineState where
  executions : List RuleExecution
  rulesetOrder : List String
  rulesetStack : List (String × Nat)
  currentDepth : Nat
  executionId : Nat
deriving DecidableEq

/-- One iteration of the `parseRuleExecutionTimeline` loop. -/
def timelineStep (lines : List String) (st : TimelineState) (i : Nat) (line : String) :
    TimelineState :=
  match rulesetMatch line with
  | none => st
  | some (ruleset, ruleId, rawName) =>
    let ruleName := jsTrim rawName
    let ruleType :=
      if i + 1 < lines.length then
        (ruleTypeMatch ruleTypeNames10 (lineAt lines (i + 1))).getD "Unknown"
      else "Unknown"
    let rulesetOrder :=
      if st.rulesetOrder.contains ruleset then st.rulesetOrder
      else st.rulesetOrder ++ [ruleset]
    -- the `while` loop of the source runs at most one iteration: both of its
    -- branches break
    let (stack1, depth1) :=
      match st.rulesetStack.getLast? with
      | some top =>
        if top.1 ≠ ruleset then
          match st.rulesetStack.findIdx? (fun (s : String × Nat) => s.1 == ruleset) with
          | some stackIndex =>
            let popped := st.rulesetStack.take (stackIndex + 1)
            (popped, popped.length)
          | none => (st.rulesetStack, st.currentDepth)
        else (st.rulesetStack, st.currentDepth)
      | none => (st.rulesetStack, st.currentDepth)
    let parentExecutionId : Option Nat :=
      match stack1.getLast? with
      | some parent => if parent.1 ≠ ruleset then some parent.2 else none
      | none => none
    let execution : RuleExecution :=
      { executionId := st.executionId, ruleId := ruleId, ruleName := ruleName,
        ruleType := ruleType, ruleset := ruleset, lineNumber := i + 1,
        depth := depth1, parentExecutionId := parentExecutionId,
        childExecutionIds := [], durationStart := i + 1, durationEnd := i + 1 }
    let executions1 := st.executions ++ [execution]
    let (stack2, depth2) :=
      if ruleType = "LoadRulesetRule" then
        (stack1 ++ [(ruleset, execution.executionId)], depth1 + 1)
      else (stack1, depth1)
    let executions2 :=
      match parentExecutionId with
      | some pid => pushChild executions1 pid execution.executionId
      | none => executions1
    { executions := executions2, rulesetOrder := rulesetOrder,
      rulesetStack := stack2, currentDepth := depth2,
      executionId := st.executionId + 1 }

/-- The duration pass: each execution ends one line before the next begins;
the last one keeps its creation value. -/
def applyDurations : List RuleExecution → List RuleExecution
  | [] => []
  | [x] => [x]
  | x :: y :: t =>
    { x with durationStart := x.lineNumber, durationEnd := y.lineNumber - 1 } ::
      applyDurations (y :: t)

/-- Hotspot fold state: `(ruleset, start, count)` of the open run. -/
def hotspotStep (acc : List Hotspot × Option (String × Nat × Nat) × Nat)
    (exec : RuleExecution) : List Hotspot × Option (String × Nat × Nat) × Nat :=
  let (hotspots, current, i) := acc
  match current with
  | some (rs, start, count) =>
    if rs = exec.ruleset then (hotspots, some (rs, start, count + 1), i + 1)
    else
      let hotspots :=
        if count ≥ 10 then
          hotspots ++
            [{ startExecution := start, endExecution := i - 1,
               ruleCount := count, ruleset := rs }]
        else hotspots
      (hotspots, some (exec.ruleset, i, 1), i + 1)
  | none => (hotspots, some (exec.ruleset, i, 1), i + 1)

/-- Hotspot detection over the finished execution list. -/
def findHotspots (executions : List RuleExecution) : List Hotspot :=
  let (hotspots, current, _) := executions.foldl hotspotStep ([], none, 0)
  match current with
  | some (rs, start, count) =>
    if count ≥ 10 then
      hotspots ++
        [{ startExecution := start, endExecution := executions.length - 1,
           ruleCount := count, ruleset := rs }]
    else hotspots
  | none => hotspots

/-- Embedded `parseRuleExecutionTimeline`. -/
def parseRuleExecutionTimeline (lines : List String) : RuleExecutionTimeline :=
  let st := lines.enum.foldl (fun st p => timelineStep lines st p.1 p.2)
    { executions := [], rulesetOrder := [], rulesetStack := [],
      currentDepth := 0, executionId := 0 }
  let executions := applyDurations st.executions
  { executions := executions,
    totalExecutions := executions.length,
    maxDepth := executions.foldl (fun m e => max m e.depth) 0,
    rulesetOrder := st.rulesetOrder,
    hotspots := findHotspots executions }

-- ============================================================
-- detectIssues (issue detector).
-- ============================================================

/-- Construct an issue; the sequential id is assigned afterwards by position
(the source increments a counter at each push). -/
def mkIssue (severity : IssueSeverity) (category : IssueCategory)
    (title description : String) (lineNumber : Nat)
    (rn rs vn ex : Option String) (ct : Option Nat) : DetectedIssue :=
  { id := "", severity := severity, category := category, title := title,
    description := description, lineNumber := lineNumber, ctxRuleName := rn,
    ctxRuleset := rs, ctxVariableName := vn, ctxExpression := ex, ctxCount := ct }

def severityRank : IssueSeverity → Nat
  | .error => 0
  | .warning => 1
  | .info => 2

/-- Rule 1: hot rules over `topRules`. -/
def hotRuleIssues (topRules : List RuleStats) : List DetectedIssue :=
  topRules.foldl
    (fun acc rule =>
      let title := "Rule executes " ++ natToStr rule.executionCount ++ " times"
      if rule.executionCount > 50 then
        acc ++ [mkIssue .error .performance title
          ("\"" ++ rule.ruleName ++ "\" may indicate a performance issue or infinite loop")
          0 (some rule.ruleName) (some rule.ruleset) none none (some rule.executionCount)]
      else if rule.executionCount > 20 then
        acc ++ [mkIssue .warning .performance title
          ("\"" ++ rule.ruleName ++ "\" executes frequently - consider optimization")
          0 (some rule.ruleName) (some rule.ruleset) none none (some rule.executionCount)]
      else if rule.executionCount > 10 then
        acc ++ [mkIssue .info .performance title
          ("\"" ++ rule.ruleName ++ "\" - consider if this frequency is expected")
          0 (some rule.ruleName) (some rule.ruleset) none none (some rule.executionCount)]
      else acc)
    []

/-- Rule 3 grouping: by `(ruleset, ruleId, expression)`, keeping the first
evaluation and counting true/false results. -/
def groupConditionsByRule (conditions : List ConditionEvaluation) :
    SMap (ConditionEvaluation × Nat × Nat) :=
  conditions.foldl
    (fun m condition =>
      let key := condition.ruleset ++ ":" ++ condition.ruleId ++ ":" ++ condition.expression
      let (c, t, f) := (sget m key).getD (condition, 0, 0)
      if condition.result then mapSet m key (c, t + 1, f)
      else mapSet m key (c, t, f + 1))
    []

/-- Rule 3: conditions evaluated three or more times that never held. -/
def alwaysFalseIssues (conditions : List ConditionEvaluation) : List DetectedIssue :=
  (groupConditionsByRule conditions).foldl
    (fun acc e =>
      let (c, trueCount, falseCount) := e.2
      let totalEvals := trueCount + falseCount
      if totalEvals ≥ 3 && trueCount = 0 then
        acc ++ [mkIssue .warning .logic
          ("Condition always False (" ++ natToStr totalEvals ++ " evaluations)")
          ("\"" ++ c.ruleName ++ "\" - rule never fires")
          c.lineNumber (some c.ruleName) (some c.ruleset) none (some c.expression)
          (some totalEvals)]
      else acc)
    []

/-- Rule 4: null-bearing condition traces, one issue per distinct expression. -/
def nullTraceIssues (conditions : List ConditionEvaluation) : List DetectedIssue :=
  let nullTraceConditions := conditions.filter
    (fun c => c.trace ≠ "" && strContains c.trace "null")
  let unique := nullTraceConditions.foldl
    (fun (m : SMap ConditionEvaluation) c =>
      if mapHas m c.expression then m else mapSet m c.expression c)
    []
  unique.map (fun e =>
    let condition := e.2
    mkIssue .info .data "Null value in expression"
      ("Expression evaluates with null: " ++ String.mk (condition.expression.toList.take 60))
      condition.lineNumber (some condition.ruleName) none none
      (some condition.expression) none)

/-- Rule 5: first unassigned-read per variable. -/
def unassignedReadIssues (variablesMap : SMap VariableSummary) : List DetectedIssue :=
  variablesMap.foldl
    (fun acc e =>
      let vsum := e.2
      match vsum.assignments.find?
          (fun assignment => assignment.previousValue == some "(unassigned)" &&
            startsLit ['='] assignment.assignmentExpression.toList) with
      | some assignment =>
        acc ++ [mkIssue .warning .data "Variable read when unassigned"
          ("\"" ++ vsum.name ++ "\" was unassigned when used in expression")
          assignment.lineNumber none none (some vsum.name)
          (some assignment.assignmentExpression) none]
      | none => acc)
    []

/-- Rule 6 counting: rollback point number to `(count, firstLine)`. -/
def rollbackCounts (lines : List String) : SMap (Nat × Nat) :=
  lines.enum.foldl
    (fun m p =>
      match rollbackCapture p.2 with
      | some ds =>
        let pointNum := String.mk ds
        match sget m pointNum with
        | some (c, fl) => mapSet m pointNum (c + 1, fl)
        | none => mapSet m pointNum (1, p.1 + 1)
      | none => m)
    []

/-- Rule 6: duplicated rollback point numbers. -/
def duplicateRollbackIssues (lines : List String) : List DetectedIssue :=
  (rollbackCounts lines).foldl
    (fun acc e =>
      let (pointNum, c, firstLine) := (e.1, e.2.1, e.2.2)
      if c > 1 then
        acc ++ [mkIssue .info .configuration
          ("Duplicate rollback point " ++ pointNum)
          ("Rollback point " ++ pointNum ++ " appears " ++ natToStr c ++ " times")
          firstLine none none none none (some c)]
      else acc)
    []

/-- Embedded `detectIssues`. -/
def detectIssues (rulesSummary : RuleExecutionSummary)
    (conditionTracking : ConditionSummary)
    (variableTracking : VariableTrackingSummary)
    (rollbackPoints : Nat) (lines : List String) : IssuesSummary :=
  let issues :=
    hotRuleIssues rulesSummary.topRules ++
    (if rollbackPoints > 15 then
      [mkIssue .warning .performance
        (natToStr rollbackPoints ++ " rollback points")
        "High rollback count may indicate complex conflict resolution"
        0 none none none none (some rollbackPoints)]
     else []) ++
    alwaysFalseIssues conditionTracking.conditions ++
    nullTraceIssues conditionTracking.conditions ++
    unassignedReadIssues variableTracking.variablesMap ++
    duplicateRollbackIssues lines
  let issues := issues.enum.map
    (fun p => { p.2 with id := "issue-" ++ natToStr (p.1 + 1) })
  let errorCount := (issues.filter (fun i => i.severity == .error)).length
  let warningCount := (issues.filter (fun i => i.severity == .warning)).length
  let infoCount := (issues.filter (fun i => i.severity == .info)).length
  { issues := stableSortBy
      (fun a b => severityRank a.severity < severityRank b.severity) issues,
    errorCount := errorCount, warningCount := warningCount, infoCount := infoCount }

-- ============================================================
-- parseTrace.
-- ============================================================

/-- Parse an Infor CPQ trace file: two passes for metadata and features, then
the five independent sub-parsers, then issue detection. -/
def parseTrace (traceContent : String) : ParsedTrace :=
  let lines := splitLines traceContent
  let groupOptionsMap := buildGroupOptionsMap lines
  let p2 := runPass2 lines groupOptionsMap
  let rulesSummary := parseRuleExecutions lines
  let integrationOutputs := parseIntegrationOutputs lines
  let variableTracking := parseVariableAssignments lines
  let conditionTracking := parseConditions lines
  let timeline := parseRuleExecutionTimeline lines
  let issues := detectIssues rulesSummary conditionTracking variableTracking
    p2.rollbackPoints lines
  { metadata := p2.metadata, features := p2.features, rulesSummary := rulesSummary,
    integrationOutputs := integrationOutputs, variableTracking := variableTracking,
    conditionTracking := conditionTracking, issues := issues, timeline := timeline,
    rulesExecuted := p2.rulesExecuted, rollbackPoints := p2.rollbackPoints,
    parseErrors := [] }

-- ============================================================
-- Behavioral regression comparator (compareBehavior).
-- ============================================================

inductive BehavioralIssueType where
  | options_changed | integration_changed | condition_changed
  | feature_missing | feature_added
deriving DecidableEq

/-- A `baseline`/`test` value of a behavioral issue
(`string | string[] | boolean | null` in the source). -/
inductive BIValue where
  | str (s : String)
  | strList (l : List String)
  | bool (b : Bool)
  | null
deriving DecidableEq

def bivOfOpt : Option String → BIValue
  | some s => .str s
  | none => .null

structure BehavioralIssue where
  type : BehavioralIssueType
  featureName : String
  lineNumber : Nat
  selection : Option String
  baselineValue : BIValue
  testValue : BIValue
  severity : IssueSeverity
  details : Option String
deriving DecidableEq

structure SelectionComparison where
  featureName : String
  baselineValue : Option String
  testValue : Option String
  isMatch : Bool
deriving DecidableEq

structure BaselineInfo where
  id : String
  name : String
  matchScore : Nat
deriving DecidableEq

structure RegressionResult where
  matchedBaselineName : String
  matchedBaselineId : String
  matchScore : Nat
  matchingSelections : List SelectionComparison
  divergentSelections : List SelectionComparison
  issues : List BehavioralIssue
  totalFeaturesCompared : Nat
  behavioralIssuesFound : Nat
  userChoicesDiverged : Nat
  errors : Nat
  warnings : Nat
  infos : Nat
deriving DecidableEq

/-- JS `String(v)` on a row property value. -/
def pvToString : PropValue → String
  | .str s => s
  | .num n => n
  | .null => "null"

/-- JS `String(v)` where `v` may be `undefined` (a missed `Map.get`). -/
def pvOptToString : Option PropValue → String
  | none => "undefined"
  | some v => pvToString v

/-- The source's `setsEqual` on two option lists viewed as JS `Set`s. -/
def setsEqualL (a b : List String) : Bool :=
  let da := jsDedup a
  let db := jsDedup b
  da.length = db.length && da.all (fun x => db.contains x)

/-- Rows keyed by id: `new Map(rows.map(r => [r.id, r]))` (later duplicate ids
overwrite the value, the position stays at the first occurrence). -/
def rowsById (rows : List IntegrationOutputRow) : SMap IntegrationOutputRow :=
  rows.foldl (fun m r => mapSet m r.id r) []

/-- Property comparison of one shared row (string-coerced inequality). -/
def rowPropIssues (templateName : String) (id : String)
    (baselineRow testRow : IntegrationOutputRow) : List BehavioralIssue :=
  baselineRow.properties.foldl
    (fun issues pe =>
      let (prop, baseValue) := pe
      let testValue := sget testRow.properties prop
      if pvToString baseValue ≠ pvOptToString testValue then
        issues ++
          [{ type := .integration_changed,
             featureName := templateName ++ "[" ++ id ++ "]." ++ prop,
             lineNumber := testRow.lineNumber, selection := none,
             baselineValue := .str (pvToString baseValue),
             testValue := .str (pvOptToString testValue),
             severity := .warning,
             details := some "Property value changed in integration output" }]
      else issues)
    []

/-- Row-by-row comparison of one shared template. -/
def sharedTemplateIssues (templateName : String)
    (baselineTemplate testTemplate : IntegrationTemplate) : List BehavioralIssue :=
  let rowCountIssues : List BehavioralIssue :=
    if baselineTemplate.rows.length ≠ testTemplate.rows.length then
      [{ type := .integration_changed, featureName := templateName,
         lineNumber := ((testTemplate.rows.head?).map (fun r => r.lineNumber)).getD 0,
         selection := none,
         baselineValue := .str (natToStr baselineTemplate.rows.length ++ " rows"),
         testValue := .str (natToStr testTemplate.rows.length ++ " rows"),
         severity := .warning,
         details := some ("Row count changed from " ++
           natToStr baselineTemplate.rows.length ++ " to " ++
           natToStr testTemplate.rows.length) }]
    else []
  let baselineRowsById := rowsById baselineTemplate.rows
  let testRowsById := rowsById testTemplate.rows
  baselineRowsById.foldl
    (fun issues e =>
      let (id, baselineRow) := e
      match sget testRowsById id with
      | none =>
        issues ++
          [{ type := .integration_changed,
             featureName := templateName ++ "[" ++ id ++ "]",
             lineNumber := baselineRow.lineNumber, selection := none,
             baselineValue := .str id, testValue := .str "Row missing",
             severity := .warning,
             details := some ("Integration row " ++ id ++ " missing from template " ++
               templateName) }]
      | some testRow => issues ++ rowPropIssues templateName id baselineRow testRow)
    rowCountIssues

/-- Embedded `compareIntegrationBehavior`.  NOTE: faithfully to the source, the
`matchingSelections` parameter is accepted but never read — every template of
either summary is compared unconditionally. -/
def compareIntegrationBehavior (baseline test : IntegrationOutputSummary)
    (matchingSelections : List SelectionComparison) : List BehavioralIssue :=
  let allTemplates := jsDedup (mapKeys baseline.templates ++ mapKeys test.templates)
  allTemplates.foldl
    (fun issues templateName =>
      match sget baseline.templates templateName, sget test.templates templateName with
      | some baselineTemplate, none =>
        issues ++
          [{ type := .integration_changed, featureName := templateName,
             lineNumber := ((baselineTemplate.rows.head?).map (fun r => r.lineNumber)).getD 0,
             selection := none,
             baselineValue := .str (natToStr baselineTemplate.rows.length ++ " rows"),
             testValue := .str "Template missing", severity := .warning,
             details := some ("Integration template \"" ++ templateName ++
               "\" missing from test trace") }]
      | none, some _ => issues
      | some baselineTemplate, some testTemplate =>
        issues ++ sharedTemplateIssues templateName baselineTemplate testTemplate
      | none, none => issues)
    []

/-- The deduplication key of condition comparison (last evaluation wins). -/
def condKey (c : ConditionEvaluation) : String :=
  c.ruleset ++ ":" ++ c.ruleId ++ ":" ++ c.expression

/-- Build the per-key map of last evaluations. -/
def condMapOf (conditions : List ConditionEvaluation) : SMap ConditionEvaluation :=
  conditions.foldl (fun m c => mapSet m (condKey c) c) []

/-- Embedded `compareConditionBehavior`. -/
def compareConditionBehavior (baseline test : ConditionSummary) : List BehavioralIssue :=
  let baselineMap := condMapOf baseline.conditions
  let testMap := condMapOf test.conditions
  baselineMap.foldl
    (fun issues e =>
      let (key, baselineCondition) := e
      match sget testMap key with
      | some testCondition =>
        if baselineCondition.result ≠ testCondition.result then
          issues ++
            [{ type := .condition_changed,
               featureName := baselineCondition.ruleName,
               lineNumber := testCondition.lineNumber,
               selection := some baselineCondition.expression,
               baselineValue := .bool baselineCondition.result,
               testValue := .bool testCondition.result,
               severity := .warning,
               details := some ("Condition \"" ++ baselineCondition.ruleName ++ "\" " ++
                 (if baselineCondition.result then "fired" else "was skipped") ++
                 " in baseline but " ++
                 (if testCondition.result then "fired" else "was skipped") ++
                 " in test") }]
        else issues
      | none => issues)
    []

/-- The per-feature loop of `compareBehavior`. -/
def featureLoop (baseline test : ParsedTrace) (allFeatures : List String) :
    List BehavioralIssue × List SelectionComparison × List SelectionComparison :=
  allFeatures.foldl
    (fun acc featureName =>
      let (issues, matching, divergent) := acc
      match sget baseline.features featureName, sget test.features featureName with
      | some baselineFeature, none =>
        (issues ++
          [{ type := .feature_missing, featureName := featureName,
             lineNumber := baselineFeature.lineNumber,
             selection := baselineFeature.selectedValue,
             baselineValue := bivOfOpt baselineFeature.selectedValue,
             testValue := .null, severity := .error,
             details := some ("Feature \"" ++ featureName ++
               "\" exists in baseline but not in test trace") }],
          matching, divergent)
      | none, some testFeature =>
        (issues ++
          [{ type := .feature_added, featureName := featureName,
             lineNumber := testFeature.lineNumber,
             selection := testFeature.selectedValue,
             baselineValue := .null,
             testValue := bivOfOpt testFeature.selectedValue, severity := .info,
             details := some ("New feature \"" ++ featureName ++
               "\" appears in test but not baseline") }],
          matching, divergent)
      | some baselineFeature, some testFeature =>
        let comparison : SelectionComparison :=
          { featureName := featureName,
            baselineValue := baselineFeature.selectedValue,
            testValue := testFeature.selectedValue,
            isMatch := baselineFeature.selectedValue == testFeature.selectedValue }
        if comparison.isMatch then
          let issues :=
            if !setsEqualL baselineFeature.options testFeature.options then
              let addedOptions := testFeature.options.filter
                (fun o => !baselineFeature.options.contains o)
              let removedOptions := baselineFeature.options.filter
                (fun o => !testFeature.options.contains o)
              issues ++
                [{ type := .options_changed, featureName := featureName,
                   lineNumber := testFeature.lineNumber,
                   selection := testFeature.selectedValue,
                   baselineValue := .strList baselineFeature.options,
                   testValue := .strList testFeature.options,
                   severity := .error,
                   details := some (if removedOptions.length > 0 then
                       "Missing options: " ++ String.intercalate ", " removedOptions
                     else
                       "Added options: " ++ String.intercalate ", " addedOptions) }]
            else issues
          (issues, matching ++ [comparison], divergent)
        else (issues, matching, divergent ++ [comparison])
      | none, none => acc)
    ([], [], [])

/-- Embedded `compareBehavior`: flags only cases where the same selection produced a
different outcome (see the claims for where the source meets this intent). -/
def compareBehavior (baseline test : ParsedTrace) (baselineInfo : BaselineInfo) :
    RegressionResult :=
  let allFeatures := jsDedup (mapKeys baseline.features ++ mapKeys test.features)
  let (issues0, matchingSelections, divergentSelections) :=
    featureLoop baseline test allFeatures
  let issues1 := issues0 ++ compareIntegrationBehavior
    baseline.integrationOutputs test.integrationOutputs matchingSelections
  let issues2 := issues1 ++ compareConditionBehavior
    baseline.conditionTracking test.conditionTracking
  let errors := (issues2.filter (fun i => i.severity == .error)).length
  let warnings := (issues2.filter (fun i => i.severity == .warning)).length
  let infos := (issues2.filter (fun i => i.severity == .info)).length
  let issues := stableSortBy
    (fun a b => severityRank a.severity < severityRank b.severity) issues2
  { matchedBaselineName := baselineInfo.name,
    matchedBaselineId := baselineInfo.id,
    matchScore := baselineInfo.matchScore,
    matchingSelections := matchingSelections,
    divergentSelections := divergentSelections,
    issues := issues,
    totalFeaturesCompared := allFeatures.length,
    behavioralIssuesFound := errors + warnings,
    userChoicesDiverged := divergentSelections.length,
    errors := errors, warnings := warnings, infos := infos }

-- ============================================================
-- Baseline storage: selection paths, fingerprint matching, and
-- the serialize/reconstruct round trip (baseline-storage source).
-- ============================================================

structure SelectionEntry where
  featureName : String
  selectedValue : Option String
  optionCount : Nat
deriving DecidableEq

structure BaselineTrace where
  id : String
  name : String
  filename : String
  trace : ParsedTrace
  selectionPath : List SelectionEntry
  createdAt : Nat
deriving DecidableEq

structure BaselineMatchResult where
  baseline : BaselineTrace
  matchScore : Nat
  matchingSelections : Nat
  totalSelections : Nat
  firstDivergenceIndex : Int
deriving DecidableEq

/-- Embedded `extractSelectionPath`: features with a non-null selected value, ordered
by line of appearance (stable sort on `lineNumber`). -/
def extractSelectionPath (trace : ParsedTrace) : List SelectionEntry :=
  let sortedFeatures := stableSortBy
    (fun (a b : FeatureData) => a.lineNumber < b.lineNumber)
    (trace.features.map Prod.snd)
  sortedFeatures.foldl
    (fun selections feature =>
      match feature.selectedValue with
      | some _ =>
        selections ++
          [{ featureName := feature.name, selectedValue := feature.selectedValue,
             optionCount := feature.options.length }]
      | none => selections)
    []

/-- JS `Math.round((m / u) * 100)` for `u > 0`, as exact rational rounding
(half up).  The double-precision detour of the source cannot change the
result at the reachable magnitudes: the distance of `100*m/u` from a rounding
boundary is at least `1/(2u) ≥ 2^-34` (list lengths are below `2^32`), while
the float evaluation error is below `100 * 2^-50`. -/
def jsRound100 (m u : Nat) : Nat := (200 * m + u) / (2 * u)

/-- Embedded `calculateMatchScore` between a stored baseline and a test selection path. -/
def calculateMatchScore (baseline : BaselineTrace)
    (testSelections : List SelectionEntry) : BaselineMatchResult :=
  let baselineSelections := baseline.selectionPath
  let testMap := testSelections.foldl (fun m s => mapSet m s.featureName s) []
  let (matchingCount, firstDivergenceIndex) :=
    baselineSelections.enum.foldl
      (fun (acc : Nat × Int) p =>
        let (mc, fdi) := acc
        let baselineSel := p.2
        match sget testMap baselineSel.featureName with
        | some testSel =>
          if testSel.selectedValue == baselineSel.selectedValue then (mc + 1, fdi)
          else if fdi = -1 then (mc, Int.ofNat p.1) else (mc, fdi)
        | none => if fdi = -1 then (mc, Int.ofNat p.1) else (mc, fdi))
      (0, -1)
  let allFeatures := jsDedup
    (baselineSelections.map (fun s => s.featureName) ++
     testSelections.map (fun s => s.featureName))
  let matchScore :=
    if allFeatures.length > 0 then jsRound100 matchingCount allFeatures.length else 0
  { baseline := baseline, matchScore := matchScore,
    matchingSelections := matchingCount, totalSelections := allFeatures.length,
    firstDivergenceIndex := firstDivergenceIndex }

/-- Embedded `findBestMatch` over the stored library's baseline list (the storage
collaborator supplies the list; max-by-score, first encountered wins ties). -/
def findBestMatch (baselines : List BaselineTrace) (testTrace : ParsedTrace) :
    Option BaselineMatchResult :=
  if baselines.length = 0 then none
  else
    let testSelections := extractSelectionPath testTrace
    baselines.foldl
      (fun best baseline =>
        let result := calculateMatchScore baseline testSelections
        match best with
        | none => some result
        | some b => if result.matchScore > b.matchScore then some result else some b)
      none

/-- Embedded `rankBaselines`: all scores, stably sorted descending. -/
def rankBaselines (baselines : List BaselineTrace) (testTrace : ParsedTrace) :
    List BaselineMatchResult :=
  let testSelections := extractSelectionPath testTrace
  stableSortBy (fun a b => b.matchScore < a.matchScore)
    (baselines.map (fun baseline => calculateMatchScore baseline testSelections))

-- ============================================================
-- serializeTrace / reconstructTrace.
-- ============================================================

/-- Whether a key is a JS array index (canonical digits, below `2^32 - 1`):
such keys are enumerated first and in numeric order on a plain object. -/
def isArrayIndexKey (s : String) : Bool :=
  let cs := s.toList
  !cs.isEmpty && cs.all Char.isDigit &&
    (s = "0" || cs.head? ≠ some '0') &&
    digitsToNat cs < 4294967295

/-- Duplicate-key collapse of JS object creation (first position, last value);
the identity on the unique-keyed maps the parser produces. -/
def jsObjDedup {a : Type} (l : List (String × a)) : List (String × a) :=
  l.foldl (fun m p => mapSet m p.1 p.2) []

/-- JS own-property enumeration order: array-index keys first, ascending,
then the remaining string keys in insertion order. -/
def jsObjReorder {a : Type} (l : List (String × a)) : List (String × a) :=
  stableSortBy
    (fun (p q : String × a) => digitsToNat p.1.toList < digitsToNat q.1.toList)
    (l.filter (fun p => isArrayIndexKey p.1)) ++
  l.filter (fun p => !isArrayIndexKey p.1)

/-- What `Object.entries (Object.fromEntries m)` yields for a map `m`: the
entries in plain-object enumeration order. -/
def jsObjOfMap {a : Type} (l : List (String × a)) : List (String × a) :=
  jsObjReorder (jsObjDedup l)

/-- What `new Map(entries)` yields: later duplicate keys overwrite in place. -/
def mapFromEntries {a : Type} (l : List (String × a)) : List (String × a) :=
  l.foldl (fun m p => mapSet m p.1 p.2) []

/-- Embedded `serializeTrace`: every nested mapping becomes a plain key-value object
(represented here by its enumeration-ordered entry list; all other fields are
spread through unchanged). -/
def serializeTrace (trace : ParsedTrace) : ParsedTrace :=
  { trace with
    features := jsObjOfMap trace.features,
    rulesSummary := { trace.rulesSummary with
      rulesets := jsObjOfMap (trace.rulesSummary.rulesets.map
        (fun p => (p.1, { p.2 with rules := jsObjOfMap p.2.rules }))),
      ruleTypeBreakdown := jsObjOfMap trace.rulesSummary.ruleTypeBreakdown },
    integrationOutputs := { trace.integrationOutputs with
      templates := jsObjOfMap (trace.integrationOutputs.templates.map
        (fun p => (p.1, { p.2 with
          rows := p.2.rows.map
            (fun r => { r with properties := jsObjOfMap r.properties }) }))) },
    variableTracking := { trace.variableTracking with
      variablesMap := jsObjOfMap trace.variableTracking.variablesMap } }

/-- Embedded `reconstructTrace`: rebuild every nested mapping from its key-value form
(`new Map(Object.entries ...)` at each level). -/
def reconstructTrace (trace : ParsedTrace) : ParsedTrace :=
  { trace with
    features := mapFromEntries trace.features,
    rulesSummary := { trace.rulesSummary with
      rulesets := mapFromEntries (trace.rulesSummary.rulesets.map
        (fun p => (p.1, { p.2 with rules := mapFromEntries p.2.rules }))),
      ruleTypeBreakdown := mapFromEntries trace.rulesSummary.ruleTypeBreakdown },
    integrationOutputs := { trace.integrationOutputs with
      templates := mapFromEntries (trace.integrationOutputs.templates.map
        (fun p => (p.1, { p.2 with
          rows := p.2.rows.map
            (fun r => { r with properties := mapFromEntries r.properties }) }))) },
    variableTracking := { trace.variableTracking with
      variablesMap := mapFromEntries trace.variableTracking.variablesMap } }


-- ============================================================
-- Generic lemmas about the association-map embedding.
-- ============================================================

theorem sget_mem {a : Type} {m : SMap a} {k : String} {v : a}
    (h : sget m k = some v) : (k, v) ∈ m := by
  induction m with
  | nil => simp [sget] at h
  | cons p t ih =>
    obtain ⟨k', v'⟩ := p
    by_cases hk : k' = k
    · subst hk
      simp [sget] at h
      simp [h]
    · simp [sget, hk] at h
      exact List.mem_cons_of_mem _ (ih h)

theorem sget_none_iff {a : Type} {m : SMap a} {k : String} :
    sget m k = none ↔ k ∉ m.map Prod.fst := by
  induction m with
  | nil => simp [sget]
  | cons p t ih =>
    obtain ⟨k', v'⟩ := p
    by_cases hk : k' = k
    · subst hk
      simp [sget]
    · simp [sget, hk, ih, Ne.symm hk]

theorem sget_isSome_iff {a : Type} {m : SMap a} {k : String} :
    (sget m k).isSome ↔ k ∈ m.map Prod.fst := by
  induction m with
  | nil => simp [sget]
  | cons p t ih =>
    obtain ⟨k', v'⟩ := p
    by_cases hk : k' = k
    · subst hk
      simp [sget]
    · simp [sget, hk, ih, Ne.symm hk]

theorem mem_sget_nodup {a : Type} {m : SMap a} {k : String} {v : a}
    (hn : (m.map Prod.fst).Nodup) (h : (k, v) ∈ m) : sget m k = some v := by
  induction m with
  | nil => simp at h
  | cons p t ih =>
    obtain ⟨k', v'⟩ := p
    simp only [List.map_cons, List.nodup_cons] at hn
    rcases List.mem_cons.mp h with h1 | h1
    · injection h1 with e1 e2
      subst e1
      subst e2
      simp [sget]
    · have hk : k' ≠ k := by
        rintro rfl
        exact hn.1 (List.mem_map_of_mem Prod.fst h1)
      simp [sget, hk]
      exact ih hn.2 h1

theorem sget_mapSet_self {a : Type} (m : SMap a) (k : String) (v : a) :
    sget (mapSet m k v) k = some v := by
  induction m with
  | nil => simp [mapSet, sget]
  | cons p t ih =>
    obtain ⟨k', v'⟩ := p
    by_cases hk : k' = k
    · subst hk
      simp [mapSet, sget]
    · simp [mapSet, hk, sget, ih]

theorem sget_mapSet_ne {a : Type} (m : SMap a) (k k' : String) (v : a)
    (h : k' ≠ k) : sget (mapSet m k v) k' = sget m k' := by
  induction m with
  | nil => simp [mapSet, sget, Ne.symm h]
  | cons p t ih =>
    obtain ⟨k0, v0⟩ := p
    by_cases hk : k0 = k
    · subst hk
      simp [mapSet, sget, Ne.symm h]
    · simp only [mapSet, if_neg hk]
      by_cases h2 : k0 = k'
      · simp [sget, h2]
      · simp [sget, h2, ih]

theorem mapSet_keys_mem {a : Type} (m : SMap a) (k : String) (v : a)
    (h : k ∈ m.map Prod.fst) :
    (mapSet m k v).map Prod.fst = m.map Prod.fst := by
  induction m with
  | nil => simp at h
  | cons p t ih =>
    obtain ⟨k', v'⟩ := p
    by_cases hk : k' = k
    · subst hk
      simp [mapSet]
    · simp only [List.map_cons] at h
      rcases List.mem_cons.mp h with h1 | h1
      · exact absurd h1.symm hk
      · simp [mapSet, hk, ih h1]

theorem mapSet_of_sget_none {a : Type} (m : SMap a) (k : String) (v : a)
    (h : sget m k = none) : mapSet m k v = m ++ [(k, v)] := by
  induction m with
  | nil => simp [mapSet]
  | cons p t ih =>
    obtain ⟨k', v'⟩ := p
    by_cases hk : k' = k
    · subst hk
      simp [sget] at h
    · simp [sget, hk] at h
      simp [mapSet, hk, ih h]

theorem mapSet_keys_nodup {a : Type} (m : SMap a) (k : String) (v : a)
    (hn : (m.map Prod.fst).Nodup) : ((mapSet m k v).map Prod.fst).Nodup := by
  by_cases h : k ∈ m.map Prod.fst
  · rw [mapSet_keys_mem m k v h]
    exact hn
  · rw [mapSet_of_sget_none m k v (sget_none_iff.mpr h)]
    simp [List.nodup_append, hn, h]

theorem mem_mapSet {a : Type} {m : SMap a} {k k' : String} {v v' : a}
    (h : (k', v') ∈ mapSet m k v) : (k', v') ∈ m ∨ (k' = k ∧ v' = v) := by
  induction m with
  | nil =>
    simp [mapSet] at h
    exact Or.inr ⟨h.1, h.2⟩
  | cons p t ih =>
    obtain ⟨k0, v0⟩ := p
    by_cases hk : k0 = k
    · subst hk
      simp only [mapSet, if_pos rfl] at h
      rcases List.mem_cons.mp h with h1 | h1
      · injection h1 with e1 e2
        exact Or.inr ⟨e1, e2⟩
      · exact Or.inl (List.mem_cons_of_mem _ h1)
    · simp only [mapSet, if_neg hk] at h
      rcases List.mem_cons.mp h with h1 | h1
      · exact Or.inl (by simp [h1])
      · rcases ih h1 with h2 | h2
        · exact Or.inl (List.mem_cons_of_mem _ h2)
        · exact Or.inr h2

theorem sget_map_snd {a b : Type} (m : SMap a) (f : a → b) (k : String) :
    sget (m.map (fun p => (p.1, f p.2))) k = (sget m k).map f := by
  induction m with
  | nil => simp [sget]
  | cons p t ih =>
    obtain ⟨k', v'⟩ := p
    by_cases hk : k' = k
    · subst hk
      simp [sget]
    · simp [sget, hk, ih]

theorem map_fst_map_snd {a b : Type} (m : SMap a) (f : a → b) :
    (m.map (fun p => (p.1, f p.2))).map Prod.fst = m.map Prod.fst := by
  induction m with
  | nil => simp
  | cons p t ih => simp [ih]

theorem mem_jsDedupGo {x : String} : ∀ {l seen : List String},
    x ∈ jsDedupGo seen l ↔ x ∉ seen ∧ x ∈ l := by
  intro l
  induction l with
  | nil => simp [jsDedupGo]
  | cons y t ih =>
    intro seen
    by_cases hy : y ∈ seen
    · simp only [jsDedupGo, if_pos hy, ih, List.mem_cons]
      constructor
      · rintro ⟨h1, h2⟩
        exact ⟨h1, Or.inr h2⟩
      · rintro ⟨h1, h2 | h2⟩
        · subst h2
          exact absurd hy h1
        · exact ⟨h1, h2⟩
    · simp only [jsDedupGo, if_neg hy, List.mem_cons, ih]
      by_cases hx : x = y
      · subst hx
        simp [hy]
      · simp only [hx, false_or]

theorem mem_jsDedup {l : List String} {x : String} : x ∈ jsDedup l ↔ x ∈ l := by
  simp [jsDedup, mem_jsDedupGo]

theorem jsDedupGo_nodup : ∀ (l seen : List String), (jsDedupGo seen l).Nodup := by
  intro l
  induction l with
  | nil => simp [jsDedupGo]
  | cons y t ih =>
    intro seen
    by_cases hy : y ∈ seen
    · simpa [jsDedupGo, hy] using ih seen
    · simp only [jsDedupGo, if_neg hy]
      refine List.nodup_cons.mpr ⟨fun hmem => ?_, ih (y :: seen)⟩
      have := (mem_jsDedupGo.mp hmem).1
      simp at this

theorem jsDedup_nodup (l : List String) : (jsDedup l).Nodup := jsDedupGo_nodup l []

-- ============================================================
-- Claim theorems.
-- ============================================================

/-- Fixture for C1: a baseline whose only feature is selected `A` and which
emits one integration template, as parsed from real trace text. -/
def c1BaselineText : String :=
  "Screen Option: F\n  Value: \"A\"\n----------\n  Template: T\n  Property : X\n  Result : \"v\""

/-- Fixture for C1: a test trace whose only feature diverges (`B`) and which
emits no integration output, so the pair has zero matching selections. -/
def c1TestText : String := "Screen Option: F\n  Value: \"B\""

/-- C1: the claim states that integration-output differences are checked for
matching selections only, so a pair with zero matching selections must yield
no `integration_changed` issues.  The code violates this — contradicting its
own comment ("Only compare templates/rows that should exist given the
matching selections") it never reads the `matchingSelections` parameter — and
at this failing input `compareBehavior` reports zero matching selections yet
emits an `integration_changed` warning for the missing template. -/
theorem c1_integration_ignores_matching :
    (compareBehavior (parseTrace c1BaselineText) (parseTrace c1TestText)
      { id := "b", name := "b", matchScore := 0 }).matchingSelections = [] ∧
    (compareBehavior (parseTrace c1BaselineText) (parseTrace c1TestText)
      { id := "b", name := "b", matchScore := 0 }).issues.map (fun i => i.type) =
      [.integration_changed] ∧
    (compareBehavior (parseTrace c1BaselineText) (parseTrace c1TestText)
      { id := "b", name := "b", matchScore := 0 }).divergentSelections.map
        (fun c => (c.featureName, c.baselineValue, c.testValue)) =
      [("F", some "A", some "B")] := by
  refine ⟨rfl, rfl, rfl⟩

/-- Fixture for C3: every header field occurs twice with different values. -/
def c3Input : String :=
  "<ConfigurationID>111</ConfigurationID>\n<ConfigurationID>222</ConfigurationID>\n" ++
  "<PartNamespace>NS1</PartNamespace>\n<PartNamespace>NS2</PartNamespace>\n" ++
  "<HeaderID>H1</HeaderID>\n<HeaderID>H2</HeaderID>"

/-- C3 counterexample: the claim says the first matching line determines the
stored configuration id, part namespace and header id; on this trace the
first matches are `111`, `NS1`, `H1`, but `parseTrace` stores the values of
the last matching lines (`222`, `NS2`, `H2`). -/
theorem c3_metadata_counterexample :
    (parseTrace c3Input).metadata.configurationId = "222" ∧
    ((splitLines c3Input).filterMap configIdMatch).head? = some "111" ∧
    (parseTrace c3Input).metadata.partNamespace = "NS2" ∧
    ((splitLines c3Input).filterMap (xmlTagMatch "PartNamespace")).head? = some "NS1" ∧
    (parseTrace c3Input).metadata.headerID = "H2" ∧
    ((splitLines c3Input).filterMap (xmlTagMatch "HeaderID")).head? = some "H1" ∧
    ("222" : String) ≠ "111" := by
  refine ⟨rfl, rfl, rfl, rfl, rfl, rfl, by decide⟩

/-- C7 counterexample: the claim says `hasChanges` is true iff some assignment
has `previousValue ≠ resultValue` with `previousValue` not the sentinel.  This
trace produces an assignment whose `previousValue` is null (no `Previous`
field) and whose `resultValue` is `"x"` — different, and not the sentinel —
yet `hasChanges` is false, because the code additionally requires both values
to be non-null. -/
theorem c7_hasChanges_counterexample :
    (parseVariableAssignments ["  Variable : V", "  Result : \"x\""]).variablesMap.map
      (fun p => (p.1, p.2.hasChanges,
        p.2.assignments.map (fun a => (a.previousValue, a.resultValue)))) =
      [("V", false, [(none, some "x")])] ∧
    ((none : Option String) ≠ some "x" ∧ (none : Option String) ≠ some "(unassigned)") := by
  refine ⟨rfl, by decide⟩

/-- C8 counterexample: the claim's closed set includes `ClearUserValueRule`,
but the rule aggregator's alternation does not; a firing whose following line
is `ClearUserValueRule` is recorded with type `Unknown`. -/
theorem c8_ruleType_counterexample :
    (parseRuleExecutions
      ["Ruleset: A.B Rule: 1 R (Ruleset: A.B)", "ClearUserValueRule"]).ruleTypeBreakdown =
      [("Unknown", 1)] ∧
    (parseRuleExecutions
      ["Ruleset: A.B Rule: 1 R (Ruleset: A.B)", "ClearUserValueRule"]).rulesets.map
      (fun p => p.2.rules.map (fun q => q.2.ruleType)) = [["Unknown"]] ∧
    "ClearUserValueRule" ∈ ruleTypeNames10 ∧
    ("Unknown" : String) ≠ "ClearUserValueRule" := by
  refine ⟨rfl, rfl, by decide, by decide⟩

/-- C5: `parseExpression` never surfaces an internal failure to the caller —
empty, whitespace-only and bare `=` inputs yield the `Empty expression`
result, and every error the internal tokenizer/parser pipeline raises is
caught and returned as `root = null`, `isValid = false` with that message. -/
theorem c5_parseExpression_total :
    parseExpression "" =
      { root := none, original := "", isValid := false, error := some "Empty expression" } ∧
    parseExpression "   " =
      { root := none, original := "   ", isValid := false, error := some "Empty expression" } ∧
    parseExpression "=" =
      { root := none, original := "=", isValid := false, error := some "Empty expression" } ∧
    (∀ s e, s ≠ "" → jsTrim s ≠ "" → jsTrim s ≠ "=" → parseInternal s = .error e →
      parseExpression s =
        { root := none, original := s, isValid := false, error := some e }) := by
  refine ⟨rfl, rfl, rfl, ?_⟩
  intro s e h1 h2 h3 h4
  have hc : (s = "" || jsTrim s = "" || jsTrim s = "=") = false := by
    simp [h1, h2, h3]
  simp [parseExpression, hc, h4]

/-- C5 witness: the input `"("` passes the non-empty guards, its internal
parse raises `Unexpected token: EOF ''`, and `parseExpression` converts the
failure into an error result. -/
theorem c5_parseExpression_total_witness :
    parseExpression "(" =
      { root := none, original := "(", isValid := false,
        error := some "Unexpected token: EOF ''" } :=
  c5_parseExpression_total.2.2.2 "(" "Unexpected token: EOF ''"
    (by decide) (by decide) (by decide) rfl

/-- C10: the parser does not require the token stream to be fully consumed:
`"1 2"` tokenizes to two number tokens, yet parsing succeeds with a root
covering only the leading `1`; likewise `"X )"` succeeds with root `X`,
silently ignoring the stray parenthesis. -/
theorem c10_trailing_tokens :
    parseExpression "1 2" =
      { root := some (.mk .literal "1" none "1"), original := "1 2",
        isValid := true, error := none } ∧
    tokenize "1 2" = [⟨.NUMBER, "1", 0⟩, ⟨.NUMBER, "2", 2⟩, ⟨.EOFTOK, "", 3⟩] ∧
    parseExpression "X )" =
      { root := some (.mk .var "X" none "X"), original := "X )",
        isValid := true, error := none } := by
  refine ⟨rfl, rfl, rfl⟩

-- ============================================================
-- C3 amended: the metadata fold characterized per field.
-- ============================================================

theorem pass2Step_metadata (lines : List String) (gmap : SMap (List String))
    (st : Pass2State) (i : Nat) (line : String) :
    (pass2Step lines gmap st i line).metadata = metadataStep line st.metadata := rfl

theorem runPass2_metadata (lines : List String) (gmap : SMap (List String)) :
    (runPass2 lines gmap).metadata =
      lines.foldl (fun m line => metadataStep line m) emptyMetadata := by
  have key : ∀ (l : List (Nat × String)) (st : Pass2State),
      (l.foldl (fun st p => pass2Step lines gmap st p.1 p.2) st).metadata =
        (l.map Prod.snd).foldl (fun m line => metadataStep line m) st.metadata := by
    intro l
    induction l with
    | nil => intro st; rfl
    | cons p t ih =>
      intro st
      simp only [List.foldl_cons, List.map_cons]
      rw [ih, pass2Step_metadata]
  unfold runPass2
  rw [key, List.enum_map_snd]

theorem parseTrace_metadata (content : String) :
    (parseTrace content).metadata =
      (splitLines content).foldl (fun m line => metadataStep line m) emptyMetadata := by
  have h : (parseTrace content).metadata =
      (runPass2 (splitLines content) (buildGroupOptionsMap (splitLines content))).metadata := rfl
  rw [h, runPass2_metadata]

theorem metadataStep_instanceName (line : String) (m : ConfigurationMetadata) :
    (metadataStep line m).instanceName =
      ((instanceMatch line).map Prod.fst).getD m.instanceName := by
  unfold metadataStep
  cases instanceMatch line <;> cases configIdMatch line <;>
    cases xmlTagMatch "PartNumber" line <;> cases xmlTagMatch "PartNamespace" line <;>
    cases xmlTagMatch "ConfigurationMode" line <;> cases xmlTagMatch "HeaderID" line <;>
    simp [apply_ite]

theorem metadataStep_application (line : String) (m : ConfigurationMetadata) :
    (metadataStep line m).application =
      ((instanceMatch line).map Prod.snd).getD m.application := by
  unfold metadataStep
  cases instanceMatch line <;> cases configIdMatch line <;>
    cases xmlTagMatch "PartNumber" line <;> cases xmlTagMatch "PartNamespace" line <;>
    cases xmlTagMatch "ConfigurationMode" line <;> cases xmlTagMatch "HeaderID" line <;>
    simp [apply_ite]

theorem metadataStep_configurationId (line : String) (m : ConfigurationMetadata) :
    (metadataStep line m).configurationId = (configIdMatch line).getD m.configurationId := by
  unfold metadataStep
  cases instanceMatch line <;> cases configIdMatch line <;>
    cases xmlTagMatch "PartNumber" line <;> cases xmlTagMatch "PartNamespace" line <;>
    cases xmlTagMatch "ConfigurationMode" line <;> cases xmlTagMatch "HeaderID" line <;>
    simp [apply_ite]

theorem metadataStep_partNamespace (line : String) (m : ConfigurationMetadata) :
    (metadataStep line m).partNamespace =
      (xmlTagMatch "PartNamespace" line).getD m.partNamespace := by
  unfold metadataStep
  cases instanceMatch line <;> cases configIdMatch line <;>
    cases xmlTagMatch "PartNumber" line <;> cases xmlTagMatch "PartNamespace" line <;>
    cases xmlTagMatch "ConfigurationMode" line <;> cases xmlTagMatch "HeaderID" line <;>
    simp [apply_ite]

theorem metadataStep_configurationMode (line : String) (m : ConfigurationMetadata) :
    (metadataStep line m).configurationMode =
      (xmlTagMatch "ConfigurationMode" line).getD m.configurationMode := by
  unfold metadataStep
  cases instanceMatch line <;> cases configIdMatch line <;>
    cases xmlTagMatch "PartNumber" line <;> cases xmlTagMatch "PartNamespace" line <;>
    cases xmlTagMatch "ConfigurationMode" line <;> cases xmlTagMatch "HeaderID" line <;>
    simp [apply_ite]

theorem metadataStep_headerID (line : String) (m : ConfigurationMetadata) :
    (metadataStep line m).headerID = (xmlTagMatch "HeaderID" line).getD m.headerID := by
  unfold metadataStep
  cases instanceMatch line <;> cases configIdMatch line <;>
    cases xmlTagMatch "PartNumber" line <;> cases xmlTagMatch "PartNamespace" line <;>
    cases xmlTagMatch "ConfigurationMode" line <;> cases xmlTagMatch "HeaderID" line <;>
    simp [apply_ite]

theorem metadataStep_partNumber (line : String) (m : ConfigurationMetadata) :
    (metadataStep line m).partNumber =
      (match xmlTagMatch "PartNumber" line with
       | some v => if m.partNumber = "" then v else m.partNumber
       | none => m.partNumber) := by
  unfold metadataStep
  cases instanceMatch line <;> cases configIdMatch line <;>
    cases xmlTagMatch "PartNumber" line <;> cases xmlTagMatch "PartNamespace" line <;>
    cases xmlTagMatch "ConfigurationMode" line <;> cases xmlTagMatch "HeaderID" line <;>
    simp [apply_ite] <;> (try (split <;> simp_all))

/-- Generic last-match fold characterization for an unguarded metadata field. -/
theorem foldl_metadataStep_last (f : ConfigurationMetadata → String)
    (g : String → Option String)
    (hstep : ∀ line m, f (metadataStep line m) = (g line).getD (f m)) :
    ∀ (l : List String) (m : ConfigurationMetadata),
      f (l.foldl (fun m line => metadataStep line m) m) = (l.filterMap g).getLastD (f m) := by
  intro l
  induction l with
  | nil => intro m; simp
  | cons x t ih =>
    intro m
    simp only [List.foldl_cons, List.filterMap_cons]
    cases h : g x with
    | none =>
      rw [ih]
      simp [hstep, h]
    | some v =>
      rw [ih, List.getLastD_cons]
      simp [hstep, h]

theorem scanFor_prop {a : Type} (f : List Char → Option a) (P : a → Prop)
    (hf : ∀ cs v, f cs = some v → P v) :
    ∀ cs v, scanFor f cs = some v → P v := by
  intro cs
  induction cs with
  | nil => intro v h; simp [scanFor] at h
  | cons c t ih =>
    intro v h
    simp only [scanFor] at h
    cases hf0 : f (c :: t) with
    | some w =>
      rw [hf0] at h
      simp at h
      exact h ▸ hf _ w hf0
    | none =>
      rw [hf0] at h
      exact ih v h

theorem xmlTagAttempt_ne_empty (tag : String) :
    ∀ cs v, xmlTagAttempt tag cs = some v → v ≠ "" := by
  intro cs v h
  unfold xmlTagAttempt at h
  cases hd : dropLit ("<" ++ tag ++ ">").toList cs with
  | none => rw [hd] at h; cases h
  | some r1 =>
    rw [hd] at h
    simp only [] at h
    by_cases hb : (r1.takeWhile (fun c => c ≠ '<')).isEmpty
    · rw [if_pos hb] at h; cases h
    · rw [if_neg hb] at h
      cases hc : dropLit ("</" ++ tag ++ ">").toList
          (r1.drop (r1.takeWhile (fun c => c ≠ '<')).length) with
      | none => rw [hc] at h; cases h
      | some r2 =>
        rw [hc] at h
        injection h with h
        subst h
        intro he
        have hemp : (r1.takeWhile (fun c => c ≠ '<')) = [] := by
          have := congrArg String.data he
          simpa using this
        exact hb (by rw [hemp]; rfl)

theorem xmlTagMatch_ne_empty (tag line : String) (v : String)
    (h : xmlTagMatch tag line = some v) : v ≠ "" :=
  scanFor_prop (xmlTagAttempt tag) (fun v => v ≠ "")
    (fun cs v hv => xmlTagAttempt_ne_empty tag cs v hv) line.toList v h

/-- First-match fold characterization for `partNumber` (captures are never
empty, so the guard never re-opens). -/
theorem foldl_metadataStep_partNumber :
    ∀ (l : List String) (m : ConfigurationMetadata),
      (l.foldl (fun m line => metadataStep line m) m).partNumber =
        (if m.partNumber = "" then
          (l.filterMap (xmlTagMatch "PartNumber")).headD m.partNumber
         else m.partNumber) := by
  intro l
  induction l with
  | nil => intro m; simp
  | cons x t ih =>
    intro m
    simp only [List.foldl_cons, List.filterMap_cons]
    cases h : xmlTagMatch "PartNumber" x with
    | none =>
      rw [ih]
      have hp : (metadataStep x m).partNumber = m.partNumber := by
        rw [metadataStep_partNumber, h]
      rw [hp]
    | some v =>
      rw [ih]
      have hp : (metadataStep x m).partNumber =
          (if m.partNumber = "" then v else m.partNumber) := by
        rw [metadataStep_partNumber, h]
      rw [hp]
      by_cases hm : m.partNumber = ""
      · have hv : v ≠ "" := xmlTagMatch_ne_empty "PartNumber" x v h
        simp [hm, hv]
      · simp [hm]

/-- C3 (amended): in `parseTrace`'s metadata extraction the most recent (last)
matching line wins for instance/application, configuration id, part
namespace, configuration mode and header id, while for part number the first
matching line wins (its capture is always non-empty). -/
theorem c3_metadata_last_match (content : String) :
    (parseTrace content).metadata =
      { instanceName :=
          ((splitLines content).filterMap
            (fun l => (instanceMatch l).map Prod.fst)).getLastD "",
        application :=
          ((splitLines content).filterMap
            (fun l => (instanceMatch l).map Prod.snd)).getLastD "",
        configurationId :=
          ((splitLines content).filterMap configIdMatch).getLastD "",
        partNumber :=
          ((splitLines content).filterMap (xmlTagMatch "PartNumber")).headD "",
        partNamespace :=
          ((splitLines content).filterMap (xmlTagMatch "PartNamespace")).getLastD "",
        configurationMode :=
          ((splitLines content).filterMap (xmlTagMatch "ConfigurationMode")).getLastD "",
        headerID :=
          ((splitLines content).filterMap (xmlTagMatch "HeaderID")).getLastD "" } := by
  rw [parseTrace_metadata]
  refine ConfigurationMetadata.ext ?_ ?_ ?_ ?_ ?_ ?_ ?_
  · exact foldl_metadataStep_last ConfigurationMetadata.instanceName
      (fun l => (instanceMatch l).map Prod.fst) metadataStep_instanceName _ _
  · exact foldl_metadataStep_last ConfigurationMetadata.application
      (fun l => (instanceMatch l).map Prod.snd) metadataStep_application _ _
  · exact foldl_metadataStep_last ConfigurationMetadata.configurationId
      configIdMatch metadataStep_configurationId _ _
  · rw [foldl_metadataStep_partNumber (splitLines content) emptyMetadata,
      if_pos (show emptyMetadata.partNumber = "" from rfl)]
    rfl
  · exact foldl_metadataStep_last ConfigurationMetadata.partNamespace
      (xmlTagMatch "PartNamespace") metadataStep_partNamespace _ _
  · exact foldl_metadataStep_last ConfigurationMetadata.configurationMode
      (xmlTagMatch "ConfigurationMode") metadataStep_configurationMode _ _
  · exact foldl_metadataStep_last ConfigurationMetadata.headerID
      (xmlTagMatch "HeaderID") metadataStep_headerID _ _

-- ============================================================
-- C7 amended: hasChanges characterized.
-- ============================================================

theorem groupStep_inv (m : SMap VariableSummary) (a : VariableAssignment)
    (h : ∀ p ∈ m, p.2.hasChanges = p.2.assignments.any changePred) :
    ∀ p ∈ groupStep m a, p.2.hasChanges = p.2.assignments.any changePred := by
  intro p hp
  unfold groupStep at hp
  rcases mem_mapSet hp with hp1 | ⟨hk, hv⟩
  · exact h p hp1
  · obtain ⟨k', v'⟩ := p
    simp only at hk hv
    subst hv
    cases hsget : sget m a.displayName with
    | none =>
      simp only [hsget, Option.getD_none]
      simp [List.any_append]
    | some s0 =>
      simp only [hsget, Option.getD_some]
      have h0 := h (a.displayName, s0) (sget_mem hsget)
      simp only at h0
      simp [List.any_append, h0]

theorem groupAssignments_hasChanges (assignments : List VariableAssignment) :
    ∀ p ∈ groupAssignments assignments,
      p.2.hasChanges = p.2.assignments.any changePred := by
  have key : ∀ (l : List VariableAssignment) (m : SMap VariableSummary),
      (∀ p ∈ m, p.2.hasChanges = p.2.assignments.any changePred) →
      ∀ p ∈ l.foldl groupStep m, p.2.hasChanges = p.2.assignments.any changePred := by
    intro l
    induction l with
    | nil => intro m h; exact h
    | cons a t ih =>
      intro m h
      exact ih (groupStep m a) (groupStep_inv m a h)
  exact key assignments [] (by simp)

theorem changePred_iff (a : VariableAssignment) :
    changePred a = true ↔
      ∃ pv rv, a.previousValue = some pv ∧ a.resultValue = some rv ∧
        pv ≠ rv ∧ pv ≠ "(unassigned)" := by
  unfold changePred
  cases a.previousValue with
  | none => simp
  | some p =>
    cases a.resultValue with
    | none => simp
    | some r => simp

/-- C7 (amended): for every variable summary produced by the variable
tracker, `hasChanges` is true iff some assignment of the summary has
`previousValue` and `resultValue` both non-null, `previousValue` different
from `resultValue`, and `previousValue` not the sentinel `"(unassigned)"`. -/
theorem c7_hasChanges (lines : List String) :
    ∀ p ∈ (parseVariableAssignments lines).variablesMap,
      p.2.hasChanges = true ↔
        ∃ a ∈ p.2.assignments, ∃ pv rv, a.previousValue = some pv ∧
          a.resultValue = some rv ∧ pv ≠ rv ∧ pv ≠ "(unassigned)" := by
  intro p hp
  have h : p.2.hasChanges = p.2.assignments.any changePred := by
    have : (parseVariableAssignments lines).variablesMap =
        groupAssignments (lines.enum.foldl (fun st q => varStep lines st q.1 q.2)
          { assignments := [], variableValues := [], currentRuleset := "",
            currentRuleName := "", currentRuleType := "" }).assignments := rfl
    rw [this] at hp
    exact groupAssignments_hasChanges _ p hp
  rw [h, List.any_eq_true]
  constructor
  · rintro ⟨a, ha, hc⟩
    exact ⟨a, ha, (changePred_iff a).mp hc⟩
  · rintro ⟨a, ha, hc⟩
    exact ⟨a, ha, (changePred_iff a).mpr hc⟩

/-- Fixture for the C7 witness: the summary built from one changing
assignment. -/
def c7wAssignment : VariableAssignment :=
  { variableName := "V", displayName := "V", assignmentExpression := "",
    previousValue := some "a", resultValue := some "b", lineNumber := 1,
    ruleType := "", ruleName := "", ruleset := "" }

def c7wSummary : VariableSummary :=
  { name := "V", rawName := "V", assignments := [c7wAssignment],
    finalValue := some "b", assignmentCount := 1, firstAssignmentLine := 1,
    lastAssignmentLine := 1, hasChanges := true }

/-- C7 witness: on a concrete trace with one genuine change, the produced
summary is a member of the tracker's output and the amended equivalence holds
for it. -/
theorem c7_hasChanges_witness :
    ("V", c7wSummary) ∈ (parseVariableAssignments
      ["  Variable : V", "  Previous : \"a\"", "  Result : \"b\""]).variablesMap ∧
    (c7wSummary.hasChanges = true ↔
      ∃ a ∈ c7wSummary.assignments, ∃ pv rv, a.previousValue = some pv ∧
        a.resultValue = some rv ∧ pv ≠ rv ∧ pv ≠ "(unassigned)") :=
  ⟨by decide, c7_hasChanges
    ["  Variable : V", "  Previous : \"a\"", "  Result : \"b\""]
    ("V", c7wSummary) (by decide)⟩

-- ============================================================
-- C8 amended: the rule-type breakdown characterized.
-- ============================================================

/-- The claim-side recomputation: the type of each firing event, read by a
prefix match of the immediately following line against the aggregator's NINE
type names (`ClearUserValueRule` is not among them), else `"Unknown"`. -/
def firingTypes (lines : List String) : List String :=
  lines.enum.filterMap
    (fun p => (rulesetMatch p.2).map (fun _ =>
      if p.1 + 1 < lines.length then
        (ruleTypeMatch ruleTypeNames9 (lineAt lines (p.1 + 1))).getD "Unknown"
      else "Unknown"))

/-- Occurrence counting in first-encounter order (the shape a JS map of
counters takes). -/
def countsOf (l : List String) : SMap Nat :=
  l.foldl (fun m ty => mapSet m ty ((sget m ty).getD 0 + 1)) []

theorem ruleExecStep_breakdown (lines : List String) (st : RuleExecState)
    (i : Nat) (line : String) :
    (ruleExecStep lines st i line).ruleTypeBreakdown =
      match (rulesetMatch line).map (fun _ =>
          if i + 1 < lines.length then
            (ruleTypeMatch ruleTypeNames9 (lineAt lines (i + 1))).getD "Unknown"
          else "Unknown") with
      | some ty => mapSet st.ruleTypeBreakdown ty
          ((sget st.ruleTypeBreakdown ty).getD 0 + 1)
      | none => st.ruleTypeBreakdown := by
  unfold ruleExecStep
  cases h : rulesetMatch line with
  | none => simp [h]
  | some r =>
    obtain ⟨rs, id, nm⟩ := r
    simp [h]

theorem parseRuleExecutions_breakdown_counts (lines : List String) :
    (parseRuleExecutions lines).ruleTypeBreakdown = countsOf (firingTypes lines) := by
  have key : ∀ (l : List (Nat × String)) (st : RuleExecState),
      (l.foldl (fun st p => ruleExecStep lines st p.1 p.2) st).ruleTypeBreakdown =
        (l.filterMap (fun p => (rulesetMatch p.2).map (fun _ =>
          if p.1 + 1 < lines.length then
            (ruleTypeMatch ruleTypeNames9 (lineAt lines (p.1 + 1))).getD "Unknown"
          else "Unknown"))).foldl
          (fun m ty => mapSet m ty ((sget m ty).getD 0 + 1)) st.ruleTypeBreakdown := by
    intro l
    induction l with
    | nil => intro st; rfl
    | cons p t ih =>
      intro st
      simp only [List.foldl_cons, List.filterMap_cons]
      rw [ih, ruleExecStep_breakdown]
      cases h : rulesetMatch p.2 with
      | none => simp [h]
      | some r => simp [h]
  have hproj : (parseRuleExecutions lines).ruleTypeBreakdown =
      (lines.enum.foldl (fun st p => ruleExecStep lines st p.1 p.2)
        { rulesets := [], ruleTypeBreakdown := [], ruleExecutionCounts := [],
          totalExecutions := 0 }).ruleTypeBreakdown := rfl
  rw [hproj, key]
  rfl

theorem jsDedupGo_append_single (x : String) :
    ∀ (l seen : List String),
      jsDedupGo seen (l ++ [x]) =
        (if x ∈ seen ∨ x ∈ l then jsDedupGo seen l else jsDedupGo seen l ++ [x]) := by
  intro l
  induction l with
  | nil =>
    intro seen
    by_cases h : x ∈ seen <;> simp [jsDedupGo, h]
  | cons y t ih =>
    intro seen
    by_cases hy : y ∈ seen
    · rw [show jsDedupGo seen (y :: t ++ [x]) = jsDedupGo seen (t ++ [x]) from by
          simp [jsDedupGo, hy],
        show jsDedupGo seen (y :: t) = jsDedupGo seen t from by simp [jsDedupGo, hy],
        ih seen]
      have hiff : (x ∈ seen ∨ x ∈ y :: t) ↔ (x ∈ seen ∨ x ∈ t) := by
        constructor
        · rintro (h | h)
          · exact Or.inl h
          · rcases List.mem_cons.mp h with h | h
            · exact Or.inl (h ▸ hy)
            · exact Or.inr h
        · rintro (h | h)
          · exact Or.inl h
          · exact Or.inr (List.mem_cons_of_mem _ h)
      exact if_congr hiff.symm rfl rfl
    · rw [show jsDedupGo seen (y :: t ++ [x]) = y :: jsDedupGo (y :: seen) (t ++ [x]) from by
          simp [jsDedupGo, hy],
        show jsDedupGo seen (y :: t) = y :: jsDedupGo (y :: seen) t from by
          simp [jsDedupGo, hy],
        ih (y :: seen)]
      have hiff : (x ∈ y :: seen ∨ x ∈ t) ↔ (x ∈ seen ∨ x ∈ y :: t) := by
        constructor
        · rintro (h | h)
          · rcases List.mem_cons.mp h with h | h
            · exact Or.inr (h ▸ List.mem_cons_self y t)
            · exact Or.inl h
          · exact Or.inr (List.mem_cons_of_mem _ h)
        · rintro (h | h)
          · exact Or.inl (List.mem_cons_of_mem _ h)
          · rcases List.mem_cons.mp h with h | h
            · exact Or.inl (h ▸ List.mem_cons_self y seen)
            · exact Or.inr h
      by_cases hx : x ∈ y :: seen ∨ x ∈ t
      · rw [if_pos hx, if_pos (hiff.mp hx)]
      · rw [if_neg hx, if_neg (fun hc => hx (hiff.mpr hc))]
        simp

theorem jsDedup_append_single (l : List String) (x : String) :
    jsDedup (l ++ [x]) = (if x ∈ l then jsDedup l else jsDedup l ++ [x]) := by
  unfold jsDedup
  rw [jsDedupGo_append_single]
  simp

theorem sget_keyed_map (ks : List String) (f : String → Nat) (x : String) :
    sget (ks.map (fun k => (k, f k))) x = (if x ∈ ks then some (f x) else none) := by
  induction ks with
  | nil => simp [sget]
  | cons k t ih =>
    by_cases hk : k = x
    · subst hk
      simp [sget]
    · simp [sget, hk, ih, Ne.symm hk]

theorem mapSet_keyed_map (ks : List String) (f : String → Nat) (x : String) (v : Nat)
    (hnd : ks.Nodup) (hx : x ∈ ks) :
    mapSet (ks.map (fun k => (k, f k))) x v =
      ks.map (fun k => (k, if k = x then v else f k)) := by
  induction ks with
  | nil => simp at hx
  | cons k t ih =>
    rcases List.nodup_cons.mp hnd with ⟨hknotin, hndt⟩
    by_cases hk : k = x
    · subst hk
      have htail : List.map (fun y => (y, f y)) t =
          List.map (fun y => (y, if y = k then v else f y)) t := by
        refine List.map_congr_left (fun y hy => ?_)
        have hyx : y ≠ k := fun he => hknotin (he ▸ hy)
        simp [hyx]
      simp [mapSet, htail]
    · rcases List.mem_cons.mp hx with h | h
      · exact absurd h.symm hk
      · simp only [List.map_cons, mapSet, if_neg hk]
        rw [ih hndt h]

theorem countsOf_spec (l : List String) :
    countsOf l = (jsDedup l).map (fun ty => (ty, l.count ty)) := by
  induction l using List.reverseRecOn with
  | nil => rfl
  | append_singleton l x ih =>
    have hstep : countsOf (l ++ [x]) =
        mapSet (countsOf l) x ((sget (countsOf l) x).getD 0 + 1) := by
      unfold countsOf
      rw [List.foldl_append]
      rfl
    rw [hstep, ih, jsDedup_append_single]
    by_cases hx : x ∈ l
    · rw [if_pos hx]
      have hxd : x ∈ jsDedup l := mem_jsDedup.mpr hx
      rw [sget_keyed_map _ _ _ , if_pos hxd]
      rw [mapSet_keyed_map _ _ _ _ (jsDedup_nodup l) hxd]
      refine (List.map_congr_left (fun y hy => ?_)).symm
      by_cases hyx : y = x
      · subst hyx
        simp [List.count_append]
      · simp [List.count_append, hyx, List.count_singleton']
    · rw [if_neg hx]
      have hxd : x ∉ jsDedup l := fun hc => hx (mem_jsDedup.mp hc)
      rw [sget_keyed_map _ _ _, if_neg hxd]
      have hnone : sget ((jsDedup l).map (fun ty => (ty, l.count ty))) x = none := by
        rw [sget_keyed_map _ _ _, if_neg hxd]
      rw [mapSet_of_sget_none _ _ _ hnone]
      rw [List.map_append]
      congr 1
      · refine (List.map_congr_left (fun y hy => ?_)).symm
        have hyx : y ≠ x := fun he => hxd (he ▸ hy)
        simp [List.count_append, hyx, List.count_singleton']
      · simp [List.count_append, List.count_eq_zero.mpr hx]

/-- C8 (amended): the rule aggregator records each firing's type as the
prefix match of the immediately following line against its NINE-name closed
set (without `ClearUserValueRule`), else `"Unknown"`; the stored type
breakdown is exactly the per-type count of those firing types, keyed in
first-encounter order. -/
theorem c8_ruleType_breakdown (lines : List String) :
    (parseRuleExecutions lines).ruleTypeBreakdown =
      (jsDedup (firingTypes lines)).map
        (fun ty => (ty, (firingTypes lines).count ty)) := by
  rw [parseRuleExecutions_breakdown_counts, countsOf_spec]

-- ============================================================
-- C9: the three execution counters agree.
-- ============================================================

theorem ruleExecStep_total (lines : List String) (st : RuleExecState)
    (i : Nat) (line : String) :
    (ruleExecStep lines st i line).totalExecutions =
      (if (rulesetMatch line).isSome then st.totalExecutions + 1
       else st.totalExecutions) := by
  cases h : rulesetMatch line with
  | none => simp [ruleExecStep, h]
  | some r =>
    obtain ⟨rs, id, nm⟩ := r
    simp [ruleExecStep, h]

theorem countP_enum (lines : List String) :
    lines.enum.countP (fun p => (rulesetMatch p.2).isSome) =
      lines.countP (fun l => (rulesetMatch l).isSome) := by
  have h1 : lines.countP (fun l => (rulesetMatch l).isSome) =
      (lines.enum.map Prod.snd).countP (fun l => (rulesetMatch l).isSome) := by
    rw [List.enum_map_snd]
  rw [h1, List.countP_map]
  rfl

theorem parseRuleExecutions_total (lines : List String) :
    (parseRuleExecutions lines).totalExecutions =
      lines.countP (fun l => (rulesetMatch l).isSome) := by
  have key : ∀ (l : List (Nat × String)) (st : RuleExecState),
      (l.foldl (fun st p => ruleExecStep lines st p.1 p.2) st).totalExecutions =
        st.totalExecutions + l.countP (fun p => (rulesetMatch p.2).isSome) := by
    intro l
    induction l with
    | nil => intro st; simp
    | cons p t ih =>
      intro st
      simp only [List.foldl_cons, List.countP_cons]
      rw [ih, ruleExecStep_total]
      cases h : rulesetMatch p.2 with
      | none => simp [h]
      | some r => simp [h]; omega
  have hproj : (parseRuleExecutions lines).totalExecutions =
      (lines.enum.foldl (fun st p => ruleExecStep lines st p.1 p.2)
        { rulesets := [], ruleTypeBreakdown := [], ruleExecutionCounts := [],
          totalExecutions := 0 }).totalExecutions := rfl
  rw [hproj, key, countP_enum]
  simp

/-- Sum of the per-ruleset execution counters. -/
def sumExecCounts (m : SMap RulesetSummary) : Nat :=
  (m.map (fun p => p.2.executionCount)).sum

theorem sumExecCounts_mapSet_incr (m : SMap RulesetSummary) (k : String)
    (rs0 v : RulesetSummary) (h : sget m k = some rs0)
    (hv : v.executionCount = rs0.executionCount + 1) :
    sumExecCounts (mapSet m k v) = sumExecCounts m + 1 := by
  induction m with
  | nil => simp [sget] at h
  | cons p t ih =>
    obtain ⟨k0, w⟩ := p
    by_cases hk : k0 = k
    · subst hk
      simp [sget] at h
      subst h
      simp [mapSet, sumExecCounts, hv]
      omega
    · simp [sget, hk] at h
      simp only [mapSet, if_neg hk]
      have := ih h
      simp [sumExecCounts] at this ⊢
      omega

theorem sumExecCounts_mapSet_new (m : SMap RulesetSummary) (k : String)
    (v : RulesetSummary) (h : sget m k = none) :
    sumExecCounts (mapSet m k v) = sumExecCounts m + v.executionCount := by
  rw [mapSet_of_sget_none _ _ _ h]
  simp [sumExecCounts]

theorem ruleExecStep_sum (lines : List String) (st : RuleExecState)
    (i : Nat) (line : String)
    (h : sumExecCounts st.rulesets = st.totalExecutions) :
    sumExecCounts (ruleExecStep lines st i line).rulesets =
      (ruleExecStep lines st i line).totalExecutions := by
  cases hm : rulesetMatch line with
  | none => simpa [ruleExecStep, hm] using h
  | some r =>
    obtain ⟨rulesetName, ruleId, rawName⟩ := r
    simp only [ruleExecStep, hm]
    cases hs : sget st.rulesets rulesetName with
    | some rs0 =>
      simp only [hs, Option.getD_some]
      rw [sumExecCounts_mapSet_incr st.rulesets rulesetName rs0 _ hs rfl, h]
    | none =>
      simp only [hs, Option.getD_none]
      rw [sumExecCounts_mapSet_new st.rulesets rulesetName _ hs, h]

theorem parseRuleExecutions_sum (lines : List String) :
    sumExecCounts (parseRuleExecutions lines).rulesets =
      (parseRuleExecutions lines).totalExecutions := by
  have key : ∀ (l : List (Nat × String)) (st : RuleExecState),
      sumExecCounts st.rulesets = st.totalExecutions →
      sumExecCounts
          ((l.foldl (fun st p => ruleExecStep lines st p.1 p.2) st)).rulesets =
        ((l.foldl (fun st p => ruleExecStep lines st p.1 p.2) st)).totalExecutions := by
    intro l
    induction l with
    | nil => intro st h; exact h
    | cons p t ih =>
      intro st h
      exact ih _ (ruleExecStep_sum lines st p.1 p.2 h)
  have hproj1 : (parseRuleExecutions lines).rulesets =
      (lines.enum.foldl (fun st p => ruleExecStep lines st p.1 p.2)
        { rulesets := [], ruleTypeBreakdown := [], ruleExecutionCounts := [],
          totalExecutions := 0 }).rulesets := rfl
  have hproj2 : (parseRuleExecutions lines).totalExecutions =
      (lines.enum.foldl (fun st p => ruleExecStep lines st p.1 p.2)
        { rulesets := [], ruleTypeBreakdown := [], ruleExecutionCounts := [],
          totalExecutions := 0 }).totalExecutions := rfl
  rw [hproj1, hproj2]
  exact key _ _ (by simp [sumExecCounts])

theorem pushChild_length (l : List RuleExecution) (pid cid : Nat) :
    (pushChild l pid cid).length = l.length := by
  induction l with
  | nil => simp [pushChild]
  | cons e t ih =>
    by_cases h : e.executionId = pid
    · simp [pushChild, h]
    · simp [pushChild, h, ih]

theorem applyDurations_length (l : List RuleExecution) :
    (applyDurations l).length = l.length := by
  induction l with
  | nil => simp [applyDurations]
  | cons x t ih =>
    cases t with
    | nil => simp [applyDurations]
    | cons y r =>
      simp only [applyDurations, List.length_cons] at ih ⊢
      omega

theorem timelineStep_length (lines : List String) (st : TimelineState)
    (i : Nat) (line : String) :
    (timelineStep lines st i line).executions.length =
      (if (rulesetMatch line).isSome then st.executions.length + 1
       else st.executions.length) := by
  cases h : rulesetMatch line with
  | none => simp [timelineStep, h]
  | some r =>
    obtain ⟨ruleset, ruleId, rawName⟩ := r
    simp only [timelineStep, h, if_pos]
    split
    · rw [pushChild_length]
      simp
    · simp

theorem timeline_exec_length (lines : List String) :
    (parseRuleExecutionTimeline lines).executions.length =
      lines.countP (fun l => (rulesetMatch l).isSome) := by
  have key : ∀ (l : List (Nat × String)) (st : TimelineState),
      ((l.foldl (fun st p => timelineStep lines st p.1 p.2) st)).executions.length =
        st.executions.length + l.countP (fun p => (rulesetMatch p.2).isSome) := by
    intro l
    induction l with
    | nil => intro st; simp
    | cons p t ih =>
      intro st
      simp only [List.foldl_cons, List.countP_cons]
      rw [ih, timelineStep_length]
      cases h : rulesetMatch p.2 with
      | none => simp [h]
      | some r => simp [h]; omega
  have hproj : (parseRuleExecutionTimeline lines).executions =
      applyDurations
        ((lines.enum.foldl (fun st p => timelineStep lines st p.1 p.2)
          { executions := [], rulesetOrder := [], rulesetStack := [],
            currentDepth := 0, executionId := 0 })).executions := rfl
  rw [hproj, applyDurations_length, key, countP_enum]
  simp

/-- C9: `rulesSummary.totalExecutions`, `timeline.totalExecutions`, the
timeline's execution-list length, and the sum of per-ruleset execution
counters all equal the number of lines matching the shared firing anchor. -/
theorem c9_execution_counts (content : String) :
    (parseTrace content).rulesSummary.totalExecutions =
      (parseTrace content).timeline.totalExecutions ∧
    (parseTrace content).timeline.totalExecutions =
      (parseTrace content).timeline.executions.length ∧
    (parseTrace content).rulesSummary.totalExecutions =
      ((parseTrace content).rulesSummary.rulesets.map
        (fun p => p.2.executionCount)).sum := by
  have h1 : (parseTrace content).rulesSummary =
      parseRuleExecutions (splitLines content) := rfl
  have h2 : (parseTrace content).timeline =
      parseRuleExecutionTimeline (splitLines content) := rfl
  have h3 : (parseRuleExecutionTimeline (splitLines content)).totalExecutions =
      (parseRuleExecutionTimeline (splitLines content)).executions.length := rfl
  refine ⟨?_, ?_, ?_⟩
  · rw [h1, h2, h3, timeline_exec_length, parseRuleExecutions_total]
  · rw [h2, h3]
  · rw [h1]
    have := parseRuleExecutions_sum (splitLines content)
    unfold sumExecCounts at this
    exact this.symm

-- ============================================================
-- C2: comparing a trace against itself reports nothing.
-- ============================================================

theorem foldl_fixed {a b : Type} (f : b → a → b) (l : List a) (z : b)
    (h : ∀ x ∈ l, ∀ acc, f acc x = acc) : l.foldl f z = z := by
  induction l generalizing z with
  | nil => rfl
  | cons x t ih =>
    rw [List.foldl_cons, h x (by simp)]
    exact ih _ (fun y hy acc => h y (by simp [hy]) acc)

theorem foldl_inv {a b : Type} (f : b → a → b) (l : List a) (P : b → Prop)
    (hstep : ∀ acc, P acc → ∀ x ∈ l, P (f acc x)) (z : b) (hz : P z) :
    P (l.foldl f z) := by
  induction l generalizing z with
  | nil => exact hz
  | cons x t ih =>
    exact ih (fun acc hacc y hy => hstep acc hacc y (by simp [hy])) _
      (hstep z hz x (by simp))

theorem foldl_mapSet_nodup {b a : Type} (key : b → String) (val : b → a)
    (l : List b) (m : SMap a) (h : (m.map Prod.fst).Nodup) :
    ((l.foldl (fun m x => mapSet m (key x) (val x)) m).map Prod.fst).Nodup := by
  induction l generalizing m with
  | nil => exact h
  | cons x t ih => exact ih _ (mapSet_keys_nodup m (key x) (val x) h)

theorem mem_foldl_mapSet {b a : Type} (key : b → String) (val : b → a)
    (l : List b) (m : SMap a) {k : String} {v : a}
    (h : (k, v) ∈ l.foldl (fun m x => mapSet m (key x) (val x)) m) :
    (k, v) ∈ m ∨ ∃ x ∈ l, k = key x ∧ v = val x := by
  induction l generalizing m with
  | nil => exact Or.inl h
  | cons x t ih =>
    rcases ih _ h with h1 | ⟨y, hy, hk, hv⟩
    · rcases mem_mapSet h1 with h2 | ⟨hk, hv⟩
      · exact Or.inl h2
      · exact Or.inr ⟨x, by simp, hk, hv⟩
    · exact Or.inr ⟨y, by simp [hy], hk, hv⟩

theorem rowsById_keys_nodup (rows : List IntegrationOutputRow) :
    ((rowsById rows).map Prod.fst).Nodup := by
  unfold rowsById
  exact foldl_mapSet_nodup (fun r : IntegrationOutputRow => r.id)
    (fun r => r) rows [] (by simp)

theorem mem_rowsById {rows : List IntegrationOutputRow} {k : String}
    {r : IntegrationOutputRow} (h : (k, r) ∈ rowsById rows) : r ∈ rows := by
  rcases mem_foldl_mapSet (fun r : IntegrationOutputRow => r.id)
      (fun r => r) rows [] h with h1 | ⟨y, hy, _, hv⟩
  · simp at h1
  · exact hv ▸ hy

theorem condMapOf_keys_nodup (l : List ConditionEvaluation) :
    ((condMapOf l).map Prod.fst).Nodup :=
  foldl_mapSet_nodup condKey (fun c => c) l [] (by simp)

theorem setsEqualL_self (a : List String) : setsEqualL a a = true := by
  simp [setsEqualL, List.all_eq_true]

theorem rowPropIssues_self (tn id : String) (r : IntegrationOutputRow)
    (h : (r.properties.map Prod.fst).Nodup) :
    rowPropIssues tn id r r = [] := by
  unfold rowPropIssues
  apply foldl_fixed
  intro pe hpe acc
  obtain ⟨prop, v⟩ := pe
  have hs : sget r.properties prop = some v := mem_sget_nodup h hpe
  simp [hs, pvOptToString]

theorem sharedTemplateIssues_self (tn : String) (t : IntegrationTemplate)
    (h : ∀ r ∈ t.rows, (r.properties.map Prod.fst).Nodup) :
    sharedTemplateIssues tn t t = [] := by
  unfold sharedTemplateIssues
  simp only [ne_eq, not_true_eq_false, if_false]
  refine (foldl_fixed _ _ _ ?_).trans ?_
  · intro e he acc
    obtain ⟨id, row⟩ := e
    have hs : sget (rowsById t.rows) id = some row :=
      mem_sget_nodup (rowsById_keys_nodup t.rows) he
    have hrow : row ∈ t.rows := mem_rowsById he
    simp [hs, rowPropIssues_self tn id row (h row hrow)]
  · simp

theorem compareIntegrationBehavior_self (s : IntegrationOutputSummary)
    (ms : List SelectionComparison)
    (h : ∀ p ∈ s.templates, ∀ r ∈ p.2.rows, (r.properties.map Prod.fst).Nodup) :
    compareIntegrationBehavior s s ms = [] := by
  unfold compareIntegrationBehavior
  apply foldl_fixed
  intro tn htn acc
  cases hg : sget s.templates tn with
  | none => simp [hg]
  | some tt =>
    have hmem : (tn, tt) ∈ s.templates := sget_mem hg
    have hsh : sharedTemplateIssues tn tt tt = [] :=
      sharedTemplateIssues_self tn tt (fun r hr => h (tn, tt) hmem r hr)
    simp [hg, hsh]

theorem compareConditionBehavior_self (s : ConditionSummary) :
    compareConditionBehavior s s = [] := by
  unfold compareConditionBehavior
  apply foldl_fixed
  intro e he acc
  obtain ⟨key, c⟩ := e
  have hs : sget (condMapOf s.conditions) key = some c :=
    mem_sget_nodup (condMapOf_keys_nodup s.conditions) he
  simp [hs]

theorem featureLoop_self (t : ParsedTrace) (l : List String) :
    (featureLoop t t l).1 = [] ∧ (featureLoop t t l).2.2 = [] := by
  unfold featureLoop
  refine foldl_inv _ l
    (fun acc : List BehavioralIssue × List SelectionComparison ×
        List SelectionComparison => acc.1 = [] ∧ acc.2.2 = []) ?_ _ ⟨rfl, rfl⟩
  intro acc hacc fn hfn
  obtain ⟨issues, matching, divergent⟩ := acc
  obtain ⟨h1, h2⟩ := hacc
  simp only at h1 h2
  subst h1
  subst h2
  cases hg : sget t.features fn with
  | none => simp [hg]
  | some f => simp [hg, setsEqualL_self]

/-- C2: comparing any parsed trace against itself yields no behavioral issues
(hence zero errors, warnings, infos and zero counted issues) and no divergent
selections, provided each integration row keys its properties uniquely (always
true of maps built by the parser, which inserts via `Map.set`). -/
theorem c2_compareBehavior_self (t : ParsedTrace) (info : BaselineInfo)
    (hprops : ∀ p ∈ t.integrationOutputs.templates, ∀ r ∈ p.2.rows,
      (r.properties.map Prod.fst).Nodup) :
    (compareBehavior t t info).issues = [] ∧
    (compareBehavior t t info).divergentSelections = [] ∧
    (compareBehavior t t info).errors = 0 ∧
    (compareBehavior t t info).warnings = 0 ∧
    (compareBehavior t t info).infos = 0 ∧
    (compareBehavior t t info).behavioralIssuesFound = 0 ∧
    (compareBehavior t t info).userChoicesDiverged = 0 := by
  obtain ⟨⟨i0, m0, d0⟩, hfl⟩ :
      ∃ p, featureLoop t t (jsDedup (mapKeys t.features ++ mapKeys t.features)) = p :=
    ⟨_, rfl⟩
  have haf := featureLoop_self t (jsDedup (mapKeys t.features ++ mapKeys t.features))
  rw [hfl] at haf
  simp only at haf
  have hint : compareIntegrationBehavior t.integrationOutputs t.integrationOutputs m0 = [] :=
    compareIntegrationBehavior_self _ _ hprops
  have hcond : compareConditionBehavior t.conditionTracking t.conditionTracking = [] :=
    compareConditionBehavior_self _
  simp only [compareBehavior, hfl]
  rw [haf.1, haf.2, hint, hcond]
  simp [stableSortBy]

theorem c2_compareBehavior_self_witness :
    (∀ p ∈ (parseTrace "").integrationOutputs.templates, ∀ r ∈ p.2.rows,
      (r.properties.map Prod.fst).Nodup) ∧
    ((compareBehavior (parseTrace "") (parseTrace "")
        { id := "b1", name := "base", matchScore := 100 }).issues = [] ∧
     (compareBehavior (parseTrace "") (parseTrace "")
        { id := "b1", name := "base", matchScore := 100 }).divergentSelections = [] ∧
     (compareBehavior (parseTrace "") (parseTrace "")
        { id := "b1", name := "base", matchScore := 100 }).errors = 0 ∧
     (compareBehavior (parseTrace "") (parseTrace "")
        { id := "b1", name := "base", matchScore := 100 }).warnings = 0 ∧
     (compareBehavior (parseTrace "") (parseTrace "")
        { id := "b1", name := "base", matchScore := 100 }).infos = 0 ∧
     (compareBehavior (parseTrace "") (parseTrace "")
        { id := "b1", name := "base", matchScore := 100 }).behavioralIssuesFound = 0 ∧
     (compareBehavior (parseTrace "") (parseTrace "")
        { id := "b1", name := "base", matchScore := 100 }).userChoicesDiverged = 0) :=
  ⟨by decide,
   c2_compareBehavior_self (parseTrace "")
     { id := "b1", name := "base", matchScore := 100 } (by decide)⟩

-- ============================================================
-- C6: the baseline match score formula.
-- ============================================================

theorem sget_append {a : Type} (m n : SMap a) (k : String) :
    sget (m ++ n) k =
      (match sget m k with | some v => some v | none => sget n k) := by
  induction m with
  | nil => simp [sget]
  | cons p t ih =>
    obtain ⟨k0, v⟩ := p
    by_cases h : k0 = k
    · simp [sget, h]
    · simp [sget, h, ih]

theorem foldl_mapSet_fresh (l : List SelectionEntry) :
    ∀ m : SMap SelectionEntry,
      (l.map (fun s => s.featureName)).Nodup →
      (∀ s ∈ l, sget m s.featureName = none) →
      l.foldl (fun m s => mapSet m s.featureName s) m =
        m ++ l.map (fun s => (s.featureName, s)) := by
  induction l with
  | nil => intro m _ _; simp
  | cons s t ih =>
    intro m hnd hfresh
    rw [List.map_cons, List.nodup_cons] at hnd
    simp only [List.foldl_cons]
    rw [mapSet_of_sget_none m s.featureName s (hfresh s (by simp))]
    have hm2 : ∀ x ∈ t, sget (m ++ [(s.featureName, s)]) x.featureName = none := by
      intro x hx
      rw [sget_append, hfresh x (List.mem_cons_of_mem _ hx)]
      have hne : s.featureName ≠ x.featureName := by
        intro he
        exact hnd.1 (by rw [he]; exact List.mem_map_of_mem _ hx)
      simp [sget, hne]
    rw [ih _ hnd.2 hm2]
    simp

theorem testMap_eq (ts : List SelectionEntry)
    (hnd : (ts.map (fun s => s.featureName)).Nodup) :
    ts.foldl (fun m s => mapSet m s.featureName s) [] =
      ts.map (fun s => (s.featureName, s)) := by
  have h := foldl_mapSet_fresh ts [] hnd (by intro s _; rfl)
  simpa using h

theorem sget_selfmap_some {ts : List SelectionEntry} {k : String}
    {t : SelectionEntry}
    (h : sget (ts.map (fun s => (s.featureName, s))) k = some t) :
    t ∈ ts ∧ t.featureName = k := by
  have hm := sget_mem h
  rw [List.mem_map] at hm
  obtain ⟨s, hs, heq⟩ := hm
  rw [Prod.mk.injEq] at heq
  exact ⟨heq.2 ▸ hs, heq.2 ▸ heq.1⟩

theorem sget_selfmap_none {ts : List SelectionEntry} {k : String}
    (h : sget (ts.map (fun s => (s.featureName, s))) k = none) :
    ∀ s ∈ ts, s.featureName ≠ k := by
  rw [sget_none_iff] at h
  intro s hs he
  apply h
  rw [List.map_map]
  rw [show (Prod.fst ∘ fun s : SelectionEntry => (s.featureName, s)) =
    (fun s : SelectionEntry => s.featureName) from rfl]
  rw [← he]
  exact List.mem_map_of_mem _ hs

theorem matchPred_eq (ts : List SelectionEntry)
    (hnd : (ts.map (fun s => s.featureName)).Nodup) (b : SelectionEntry) :
    (match sget (ts.foldl (fun m s => mapSet m s.featureName s) [])
        b.featureName with
     | some t => t.selectedValue == b.selectedValue
     | none => false) =
    ts.any (fun t => t.featureName == b.featureName &&
      t.selectedValue == b.selectedValue) := by
  rw [testMap_eq ts hnd]
  cases hg : sget (ts.map (fun s => (s.featureName, s))) b.featureName with
  | none =>
    have hno := sget_selfmap_none hg
    simp only
    symm
    rw [List.any_eq_false]
    intro u hu hc
    rw [Bool.and_eq_true, beq_iff_eq] at hc
    exact hno u hu hc.1
  | some t =>
    obtain ⟨hmem, hname⟩ := sget_selfmap_some hg
    simp only
    cases hv : t.selectedValue == b.selectedValue with
    | true =>
      symm
      rw [List.any_eq_true]
      exact ⟨t, hmem, by simp [hname, hv]⟩
    | false =>
      symm
      rw [List.any_eq_false]
      intro u hu hc
      rw [Bool.and_eq_true, beq_iff_eq, beq_iff_eq] at hc
      have hut : u = t :=
        List.inj_on_of_nodup_map hnd hu hmem (by rw [hc.1, hname])
      rw [hut] at hc
      have hv2 : t.selectedValue ≠ b.selectedValue := by
        intro he
        rw [he] at hv
        simp at hv
      exact absurd hc.2 hv2

theorem matchCount_fold (testMap : SMap SelectionEntry)
    (l : List (Nat × SelectionEntry)) :
    ∀ acc : Nat × Int,
      (l.foldl
        (fun (acc : Nat × Int) p =>
          let (mc, fdi) := acc
          let baselineSel := p.2
          match sget testMap baselineSel.featureName with
          | some testSel =>
            if testSel.selectedValue == baselineSel.selectedValue then (mc + 1, fdi)
            else if fdi = -1 then (mc, Int.ofNat p.1) else (mc, fdi)
          | none => if fdi = -1 then (mc, Int.ofNat p.1) else (mc, fdi))
        acc).1 =
      acc.1 + l.countP (fun p =>
        match sget testMap p.2.featureName with
        | some t => t.selectedValue == p.2.selectedValue
        | none => false) := by
  induction l with
  | nil => intro acc; simp
  | cons p t ih =>
    intro acc
    obtain ⟨mc, fdi⟩ := acc
    simp only [List.foldl_cons, List.countP_cons]
    cases hg : sget testMap p.2.featureName with
    | none =>
      simp only [hg]
      split <;> (rw [ih]; simp [hg])
    | some ts0 =>
      simp only [hg]
      by_cases hv : (ts0.selectedValue == p.2.selectedValue) = true
      · rw [if_pos hv, ih]
        simp [hg, hv]
        omega
      · rw [if_neg hv]
        split <;> (rw [ih]; simp [hg, hv])

theorem countP_enum_match (testMap : SMap SelectionEntry)
    (l : List SelectionEntry) :
    l.enum.countP (fun p =>
      match sget testMap p.2.featureName with
      | some t => t.selectedValue == p.2.selectedValue
      | none => false) =
    l.countP (fun b =>
      match sget testMap b.featureName with
      | some t => t.selectedValue == b.selectedValue
      | none => false) := by
  have h1 : l.countP (fun b =>
      match sget testMap b.featureName with
      | some t => t.selectedValue == b.selectedValue
      | none => false) =
    (l.enum.map Prod.snd).countP (fun b =>
      match sget testMap b.featureName with
      | some t => t.selectedValue == b.selectedValue
      | none => false) := by
    rw [List.enum_map_snd]
  rw [h1, List.countP_map]
  rfl

theorem jsRound100_zero (u : Nat) (hu : 0 < u) : jsRound100 0 u = 0 := by
  unfold jsRound100
  rw [Nat.mul_zero, Nat.zero_add]
  exact Nat.div_eq_of_lt (by omega)

/-- C6: the match score is `round(100 * matching / union)` where `matching`
counts baseline path entries whose feature appears in the test path with an
equal selected value and `union` is the size of the union of both feature-name
sets (0 when it is empty); `findBestMatch` on an empty library finds nothing;
disjoint feature-name sets force a zero score.  Unique test-path feature names
is assumed (true of paths the extractor builds from the parser's feature map). -/
theorem c6_match_score (baseline : BaselineTrace)
    (testSelections : List SelectionEntry)
    (hnd : (testSelections.map (fun s => s.featureName)).Nodup) :
    ((calculateMatchScore baseline testSelections).matchingSelections =
        baseline.selectionPath.countP (fun b => testSelections.any (fun t =>
          t.featureName == b.featureName &&
          t.selectedValue == b.selectedValue)) ∧
     (calculateMatchScore baseline testSelections).totalSelections =
        (jsDedup (baseline.selectionPath.map (fun s => s.featureName) ++
          testSelections.map (fun s => s.featureName))).length ∧
     (calculateMatchScore baseline testSelections).matchScore =
        (if 0 < (calculateMatchScore baseline testSelections).totalSelections then
          jsRound100
            (calculateMatchScore baseline testSelections).matchingSelections
            (calculateMatchScore baseline testSelections).totalSelections
         else 0)) ∧
    (∀ t : ParsedTrace, findBestMatch [] t = none) ∧
    ((∀ s ∈ baseline.selectionPath, ∀ u ∈ testSelections,
        s.featureName ≠ u.featureName) →
      (calculateMatchScore baseline testSelections).matchScore = 0) := by
  have hmc : (calculateMatchScore baseline testSelections).matchingSelections =
      baseline.selectionPath.countP (fun b => testSelections.any (fun t =>
        t.featureName == b.featureName &&
        t.selectedValue == b.selectedValue)) := by
    have h0 : (calculateMatchScore baseline testSelections).matchingSelections =
        (baseline.selectionPath.enum.foldl
          (fun (acc : Nat × Int) p =>
            let (mc, fdi) := acc
            let baselineSel := p.2
            match sget (testSelections.foldl
                (fun m s => mapSet m s.featureName s) [])
                baselineSel.featureName with
            | some testSel =>
              if testSel.selectedValue == baselineSel.selectedValue then
                (mc + 1, fdi)
              else if fdi = -1 then (mc, Int.ofNat p.1) else (mc, fdi)
            | none => if fdi = -1 then (mc, Int.ofNat p.1) else (mc, fdi))
          ((0 : Nat), (-1 : Int))).1 := rfl
    rw [h0, matchCount_fold, countP_enum_match]
    have hfun : (fun b : SelectionEntry =>
        match sget (testSelections.foldl
            (fun m s => mapSet m s.featureName s) []) b.featureName with
        | some t => t.selectedValue == b.selectedValue
        | none => false) =
      (fun b : SelectionEntry => testSelections.any (fun t =>
        t.featureName == b.featureName &&
        t.selectedValue == b.selectedValue)) :=
      funext (matchPred_eq testSelections hnd)
    rw [hfun]
    simp
  have htot : (calculateMatchScore baseline testSelections).totalSelections =
      (jsDedup (baseline.selectionPath.map (fun s => s.featureName) ++
        testSelections.map (fun s => s.featureName))).length := rfl
  have hsc : (calculateMatchScore baseline testSelections).matchScore =
      (if 0 < (calculateMatchScore baseline testSelections).totalSelections then
        jsRound100
          (calculateMatchScore baseline testSelections).matchingSelections
          (calculateMatchScore baseline testSelections).totalSelections
       else 0) := rfl
  refine ⟨⟨hmc, htot, hsc⟩, fun t => rfl, ?_⟩
  intro hdisj
  have hzero : (calculateMatchScore baseline testSelections).matchingSelections
      = 0 := by
    rw [hmc, List.countP_eq_zero]
    intro b hb hc
    rw [List.any_eq_true] at hc
    obtain ⟨u, hu, hcu⟩ := hc
    rw [Bool.and_eq_true, beq_iff_eq] at hcu
    exact hdisj b hb u hu hcu.1.symm
  rw [hsc, hzero]
  split
  · exact jsRound100_zero _ (by assumption)
  · rfl

theorem c6_match_score_witness :
    ((([⟨"B", some "y", 2⟩] : List SelectionEntry).map
        (fun s => s.featureName)).Nodup) ∧
    (calculateMatchScore
        ⟨"id0", "n0", "f0", parseTrace "", [⟨"A", some "x", 1⟩], 0⟩
        [⟨"B", some "y", 2⟩]).matchScore = 0 :=
  ⟨by decide, (c6_match_score _ _ (by decide)).2.2 (by decide)⟩

-- ============================================================
-- C4: the serialize / reconstruct round trip.
-- ============================================================

theorem foldl_mapSet_pairs_fresh {a : Type} (l : List (String × a)) :
    ∀ m : SMap a, (l.map Prod.fst).Nodup →
      (∀ p ∈ l, sget m p.1 = none) →
      l.foldl (fun m p => mapSet m p.1 p.2) m = m ++ l := by
  induction l with
  | nil => intro m _ _; simp
  | cons p t ih =>
    intro m hnd hfresh
    rw [List.map_cons, List.nodup_cons] at hnd
    simp only [List.foldl_cons]
    rw [mapSet_of_sget_none m p.1 p.2 (hfresh p (by simp))]
    have hm2 : ∀ q ∈ t, sget (m ++ [(p.1, p.2)]) q.1 = none := by
      intro q hq
      rw [sget_append, hfresh q (List.mem_cons_of_mem _ hq)]
      have hne : p.1 ≠ q.1 := by
        intro he
        exact hnd.1 (by rw [he]; exact List.mem_map_of_mem _ hq)
      simp [sget, hne]
    rw [ih _ hnd.2 hm2]
    simp

theorem jsObjDedup_eq_self {a : Type} (l : List (String × a))
    (h : (l.map Prod.fst).Nodup) : jsObjDedup l = l := by
  unfold jsObjDedup
  have h2 := foldl_mapSet_pairs_fresh l [] h (by intro p _; rfl)
  simpa using h2

theorem mapFromEntries_eq_self {a : Type} (l : List (String × a))
    (h : (l.map Prod.fst).Nodup) : mapFromEntries l = l := by
  unfold mapFromEntries
  have h2 := foldl_mapSet_pairs_fresh l [] h (by intro p _; rfl)
  simpa using h2

theorem insertStable_perm {a : Type} (lt : a → a → Bool) (x : a) (l : List a) :
    (insertStable lt x l).Perm (x :: l) := by
  induction l with
  | nil => simp [insertStable]
  | cons y t ih =>
    by_cases h : lt x y
    · simp [insertStable, h]
    · simp only [insertStable, h, if_false]
      exact (ih.cons y).trans (List.Perm.swap x y t)

theorem stableSortBy_perm {a : Type} (lt : a → a → Bool) (l : List a) :
    (stableSortBy lt l).Perm l := by
  unfold stableSortBy
  have key : ∀ (l : List a) (acc : List a),
      (l.foldl (fun acc x => insertStable lt x acc) acc).Perm (acc ++ l) := by
    intro l
    induction l with
    | nil => intro acc; simp
    | cons x t ih =>
      intro acc
      simp only [List.foldl_cons]
      refine (ih (insertStable lt x acc)).trans ?_
      refine (List.Perm.append_right t (insertStable_perm lt x acc)).trans ?_
      rw [List.cons_append]
      exact List.perm_middle.symm
  simpa using key l []

theorem jsObjReorder_perm {a : Type} (l : List (String × a)) :
    (jsObjReorder l).Perm l := by
  unfold jsObjReorder
  refine (List.Perm.append_right _
    (stableSortBy_perm _ (l.filter (fun p => isArrayIndexKey p.1)))).trans ?_
  exact List.filter_append_perm _ l

theorem jsObjReorder_keys_nodup {a : Type} (l : List (String × a))
    (h : (l.map Prod.fst).Nodup) :
    ((jsObjReorder l).map Prod.fst).Nodup :=
  (((jsObjReorder_perm l).map Prod.fst).nodup_iff).mpr h

theorem sget_perm {a : Type} {m n : SMap a} (hp : m.Perm n)
    (hn : (n.map Prod.fst).Nodup) (k : String) : sget m k = sget n k := by
  have hm : (m.map Prod.fst).Nodup := ((hp.map Prod.fst).nodup_iff).mpr hn
  cases hg : sget n k with
  | some v => exact mem_sget_nodup hm (hp.mem_iff.mpr (sget_mem hg))
  | none =>
    rw [sget_none_iff] at hg ⊢
    intro hc
    exact hg ((hp.map Prod.fst).mem_iff.mp hc)

theorem sget_jsObjReorder {a : Type} (l : List (String × a))
    (h : (l.map Prod.fst).Nodup) (k : String) :
    sget (jsObjReorder l) k = sget l k :=
  sget_perm (jsObjReorder_perm l) h k

theorem insertStable_map {a b : Type} (f : a → b) (lt : b → b → Bool)
    (lt2 : a → a → Bool) (hf : ∀ x y, lt (f x) (f y) = lt2 x y)
    (x : a) (l : List a) :
    insertStable lt (f x) (l.map f) = (insertStable lt2 x l).map f := by
  induction l with
  | nil => simp [insertStable]
  | cons y t ih =>
    simp only [List.map_cons, insertStable, hf]
    by_cases h : lt2 x y
    · simp [h]
    · simp [h, ih]

theorem stableSortBy_map {a b : Type} (f : a → b) (lt : b → b → Bool)
    (lt2 : a → a → Bool) (hf : ∀ x y, lt (f x) (f y) = lt2 x y)
    (l : List a) :
    stableSortBy lt (l.map f) = (stableSortBy lt2 l).map f := by
  unfold stableSortBy
  have key : ∀ (l : List a) (acc : List a),
      (l.map f).foldl (fun acc x => insertStable lt x acc) (acc.map f) =
        (l.foldl (fun acc x => insertStable lt2 x acc) acc).map f := by
    intro l
    induction l with
    | nil => intro acc; simp
    | cons x t ih =>
      intro acc
      simp only [List.map_cons, List.foldl_cons]
      rw [insertStable_map f lt lt2 hf x acc]
      exact ih (insertStable lt2 x acc)
  simpa using key l []

theorem jsObjReorder_map {A B : Type} (g : A → B) (l : List (String × A)) :
    jsObjReorder (l.map (fun p => (p.1, g p.2))) =
      (jsObjReorder l).map (fun p => (p.1, g p.2)) := by
  unfold jsObjReorder
  rw [List.map_append]
  have hfil1 : (l.map (fun p => (p.1, g p.2))).filter
      (fun p => isArrayIndexKey p.1) =
      (l.filter (fun p => isArrayIndexKey p.1)).map (fun p => (p.1, g p.2)) := by
    rw [List.filter_map]
    rfl
  have hfil2 : (l.map (fun p => (p.1, g p.2))).filter
      (fun p => !isArrayIndexKey p.1) =
      (l.filter (fun p => !isArrayIndexKey p.1)).map (fun p => (p.1, g p.2)) := by
    rw [List.filter_map]
    rfl
  rw [hfil1, hfil2]
  congr 1
  exact stableSortBy_map (fun p : String × A => (p.1, g p.2)) _ _
    (fun x y => rfl) _

theorem roundTripMap {a : Type} (m : List (String × a))
    (h : (m.map Prod.fst).Nodup) :
    mapFromEntries (jsObjOfMap m) = jsObjReorder m := by
  unfold jsObjOfMap
  rw [jsObjDedup_eq_self m h]
  exact mapFromEntries_eq_self _ (jsObjReorder_keys_nodup m h)

theorem roundTripNested {A : Type} (M : List (String × A)) (f g hval : A → A)
    (hk : (M.map Prod.fst).Nodup)
    (hfg : ∀ p ∈ M, g (f p.2) = hval p.2) :
    mapFromEntries ((jsObjOfMap (M.map (fun p => (p.1, f p.2)))).map
        (fun p => (p.1, g p.2))) =
      jsObjReorder (M.map (fun p => (p.1, hval p.2))) := by
  have hkeysf : ((M.map (fun p => (p.1, f p.2))).map Prod.fst).Nodup := by
    rw [map_fst_map_snd]
    exact hk
  rw [show jsObjOfMap (M.map (fun p => (p.1, f p.2))) =
      jsObjReorder (M.map (fun p => (p.1, f p.2))) from by
    unfold jsObjOfMap
    rw [jsObjDedup_eq_self _ hkeysf]]
  rw [← jsObjReorder_map g (M.map (fun p => (p.1, f p.2)))]
  rw [List.map_map]
  rw [show ((fun p : String × A => (p.1, g p.2)) ∘
      (fun p : String × A => (p.1, f p.2))) =
      (fun p : String × A => (p.1, g (f p.2))) from funext fun p => rfl]
  rw [show M.map (fun p => (p.1, g (f p.2))) =
      M.map (fun p => (p.1, hval p.2)) from
    List.map_congr_left (fun p hp => by rw [hfg p hp])]
  exact mapFromEntries_eq_self _
    (jsObjReorder_keys_nodup _ (by rw [map_fst_map_snd]; exact hk))

/-- C4: after `serializeTrace` then `reconstructTrace`, every non-mapping
field (at top level and inside the summaries) is unchanged, and every mapping
field — features, rulesets with their nested rules, the rule-type breakdown,
integration templates with their rows' properties, and variables — holds the
same entries: its entry list is a permutation of the original (so the key set
is unchanged) and lookup returns the original value at every key, with nested
maps agreeing the same way and all other nested fields equal.  Unique keys per
map are assumed (always true of maps the parser builds via `Map.set`). -/
theorem c4_round_trip (t : ParsedTrace)
    (h1 : (t.features.map Prod.fst).Nodup)
    (h2 : (t.rulesSummary.rulesets.map Prod.fst).Nodup)
    (h3 : ∀ p ∈ t.rulesSummary.rulesets, (p.2.rules.map Prod.fst).Nodup)
    (h4 : (t.rulesSummary.ruleTypeBreakdown.map Prod.fst).Nodup)
    (h5 : (t.integrationOutputs.templates.map Prod.fst).Nodup)
    (h6 : ∀ p ∈ t.integrationOutputs.templates, ∀ r ∈ p.2.rows,
      (r.properties.map Prod.fst).Nodup)
    (h7 : (t.variableTracking.variablesMap.map Prod.fst).Nodup) :
    reconstructTrace (serializeTrace t) =
      { t with
        features := (reconstructTrace (serializeTrace t)).features,
        rulesSummary := { t.rulesSummary with
          rulesets := (reconstructTrace (serializeTrace t)).rulesSummary.rulesets,
          ruleTypeBreakdown :=
            (reconstructTrace (serializeTrace t)).rulesSummary.ruleTypeBreakdown },
        integrationOutputs := { t.integrationOutputs with
          templates :=
            (reconstructTrace (serializeTrace t)).integrationOutputs.templates },
        variableTracking := { t.variableTracking with
          variablesMap :=
            (reconstructTrace (serializeTrace t)).variableTracking.variablesMap } } ∧
    (reconstructTrace (serializeTrace t)).features.Perm t.features ∧
    (∀ k, sget (reconstructTrace (serializeTrace t)).features k =
      sget t.features k) ∧
    (reconstructTrace (serializeTrace t)).rulesSummary.ruleTypeBreakdown.Perm
      t.rulesSummary.ruleTypeBreakdown ∧
    (∀ k, sget
      (reconstructTrace (serializeTrace t)).rulesSummary.ruleTypeBreakdown k =
      sget t.rulesSummary.ruleTypeBreakdown k) ∧
    (reconstructTrace (serializeTrace t)).variableTracking.variablesMap.Perm
      t.variableTracking.variablesMap ∧
    (∀ k, sget
      (reconstructTrace (serializeTrace t)).variableTracking.variablesMap k =
      sget t.variableTracking.variablesMap k) ∧
    ((reconstructTrace (serializeTrace t)).rulesSummary.rulesets.map
      Prod.fst).Perm (t.rulesSummary.rulesets.map Prod.fst) ∧
    (∀ k rs, sget t.rulesSummary.rulesets k = some rs →
      ∃ rs2, sget (reconstructTrace (serializeTrace t)).rulesSummary.rulesets k =
          some rs2 ∧
        rs2 = { rs with rules := rs2.rules } ∧
        rs2.rules.Perm rs.rules ∧
        (∀ k2, sget rs2.rules k2 = sget rs.rules k2)) ∧
    ((reconstructTrace (serializeTrace t)).integrationOutputs.templates.map
      Prod.fst).Perm (t.integrationOutputs.templates.map Prod.fst) ∧
    (∀ k tp, sget t.integrationOutputs.templates k = some tp →
      ∃ tp2, sget
          (reconstructTrace (serializeTrace t)).integrationOutputs.templates k =
          some tp2 ∧
        tp2 = { tp with rows := tp2.rows } ∧
        List.Forall₂ (fun r2 r =>
          r2 = { r with properties := r2.properties } ∧
          r2.properties.Perm r.properties ∧
          (∀ k2, sget r2.properties k2 = sget r.properties k2))
          tp2.rows tp.rows) := by
  have ef : (reconstructTrace (serializeTrace t)).features =
      jsObjReorder t.features := by
    have e0 : (reconstructTrace (serializeTrace t)).features =
        mapFromEntries (jsObjOfMap t.features) := rfl
    rw [e0, roundTripMap t.features h1]
  have eb : (reconstructTrace (serializeTrace t)).rulesSummary.ruleTypeBreakdown =
      jsObjReorder t.rulesSummary.ruleTypeBreakdown := by
    have e0 : (reconstructTrace (serializeTrace t)).rulesSummary.ruleTypeBreakdown =
        mapFromEntries (jsObjOfMap t.rulesSummary.ruleTypeBreakdown) := rfl
    rw [e0, roundTripMap t.rulesSummary.ruleTypeBreakdown h4]
  have ev : (reconstructTrace (serializeTrace t)).variableTracking.variablesMap =
      jsObjReorder t.variableTracking.variablesMap := by
    have e0 : (reconstructTrace (serializeTrace t)).variableTracking.variablesMap =
        mapFromEntries (jsObjOfMap t.variableTracking.variablesMap) := rfl
    rw [e0, roundTripMap t.variableTracking.variablesMap h7]
  have er : (reconstructTrace (serializeTrace t)).rulesSummary.rulesets =
      jsObjReorder (t.rulesSummary.rulesets.map
        (fun p => (p.1, { p.2 with rules := jsObjReorder p.2.rules }))) := by
    exact (rfl :
      (reconstructTrace (serializeTrace t)).rulesSummary.rulesets =
        mapFromEntries ((jsObjOfMap (t.rulesSummary.rulesets.map
          (fun p : String × RulesetSummary =>
            (p.1, { p.2 with rules := jsObjOfMap p.2.rules })))).map
          (fun p : String × RulesetSummary =>
            (p.1, { p.2 with rules := mapFromEntries p.2.rules })))).trans
      (roundTripNested t.rulesSummary.rulesets
        (fun rs => { rs with rules := jsObjOfMap rs.rules })
        (fun rs => { rs with rules := mapFromEntries rs.rules })
        (fun rs => { rs with rules := jsObjReorder rs.rules })
        h2
        (fun p hp => congrArg (fun rules => { p.2 with rules := rules })
          (roundTripMap p.2.rules (h3 p hp))))
  have et : (reconstructTrace (serializeTrace t)).integrationOutputs.templates =
      jsObjReorder (t.integrationOutputs.templates.map
        (fun p : String × IntegrationTemplate => (p.1, { p.2 with rows := p.2.rows.map (fun r : IntegrationOutputRow => { r with properties := jsObjReorder r.properties }) }))) := by
    refine (rfl :
      (reconstructTrace (serializeTrace t)).integrationOutputs.templates =
        mapFromEntries ((jsObjOfMap (t.integrationOutputs.templates.map
          (fun p : String × IntegrationTemplate => (p.1, { p.2 with rows := p.2.rows.map (fun r : IntegrationOutputRow => { r with properties := jsObjOfMap r.properties }) })))).map
          (fun p : String × IntegrationTemplate => (p.1, { p.2 with rows := p.2.rows.map (fun r : IntegrationOutputRow => { r with properties := mapFromEntries r.properties }) })))).trans
      (roundTripNested t.integrationOutputs.templates
        (fun tp : IntegrationTemplate => { tp with rows := tp.rows.map (fun r : IntegrationOutputRow => { r with properties := jsObjOfMap r.properties }) })
        (fun tp : IntegrationTemplate => { tp with rows := tp.rows.map (fun r : IntegrationOutputRow => { r with properties := mapFromEntries r.properties }) })
        (fun tp : IntegrationTemplate => { tp with rows := tp.rows.map (fun r : IntegrationOutputRow => { r with properties := jsObjReorder r.properties }) })
        h5 ?_)
    intro p hp
    have hrows : (p.2.rows.map
        (fun r : IntegrationOutputRow => { r with properties := jsObjOfMap r.properties })).map
        (fun r : IntegrationOutputRow => { r with properties := mapFromEntries r.properties }) =
        p.2.rows.map
          (fun r : IntegrationOutputRow => { r with properties := jsObjReorder r.properties }) := by
      rw [List.map_map]
      apply List.map_congr_left
      intro r hr
      show ({ r with
        properties := mapFromEntries (jsObjOfMap r.properties) } :
          IntegrationOutputRow) = _
      rw [roundTripMap r.properties (h6 p hp r hr)]
    exact congrArg (fun rows => { p.2 with rows := rows }) hrows
  have hkr : ((t.rulesSummary.rulesets.map
      (fun p => (p.1, { p.2 with rules := jsObjReorder p.2.rules }))).map
      Prod.fst).Nodup := by
    have e : (t.rulesSummary.rulesets.map
        (fun p => (p.1, { p.2 with rules := jsObjReorder p.2.rules }))).map
        Prod.fst = t.rulesSummary.rulesets.map Prod.fst :=
      map_fst_map_snd t.rulesSummary.rulesets
        (fun rs => { rs with rules := jsObjReorder rs.rules })
    rw [e]
    exact h2
  have hkt : ((t.integrationOutputs.templates.map
      (fun p : String × IntegrationTemplate => (p.1, { p.2 with rows := p.2.rows.map (fun r : IntegrationOutputRow => { r with properties := jsObjReorder r.properties }) }))).map
      Prod.fst).Nodup := by
    have e : (t.integrationOutputs.templates.map
        (fun p : String × IntegrationTemplate => (p.1, { p.2 with rows := p.2.rows.map (fun r : IntegrationOutputRow => { r with properties := jsObjReorder r.properties }) }))).map
        Prod.fst = t.integrationOutputs.templates.map Prod.fst :=
      map_fst_map_snd t.integrationOutputs.templates
        (fun tp : IntegrationTemplate => { tp with rows := tp.rows.map (fun r : IntegrationOutputRow => { r with properties := jsObjReorder r.properties }) })
    rw [e]
    exact h5
  refine ⟨rfl, ?_, ?_, ?_, ?_, ?_, ?_, ?_, ?_, ?_, ?_⟩
  · rw [ef]
    exact jsObjReorder_perm t.features
  · intro k
    rw [ef]
    exact sget_jsObjReorder t.features h1 k
  · rw [eb]
    exact jsObjReorder_perm _
  · intro k
    rw [eb]
    exact sget_jsObjReorder _ h4 k
  · rw [ev]
    exact jsObjReorder_perm _
  · intro k
    rw [ev]
    exact sget_jsObjReorder _ h7 k
  · rw [er]
    have hperm := (jsObjReorder_perm (t.rulesSummary.rulesets.map
      (fun p => (p.1, { p.2 with rules := jsObjReorder p.2.rules })))).map Prod.fst
    have e : (t.rulesSummary.rulesets.map
        (fun p => (p.1, { p.2 with rules := jsObjReorder p.2.rules }))).map
        Prod.fst = t.rulesSummary.rulesets.map Prod.fst :=
      map_fst_map_snd t.rulesSummary.rulesets
        (fun rs => { rs with rules := jsObjReorder rs.rules })
    rw [e] at hperm
    exact hperm
  · intro k rs hrs
    refine ⟨{ rs with rules := jsObjReorder rs.rules }, ?_, rfl, ?_, ?_⟩
    · rw [er, sget_jsObjReorder _ hkr k]
      exact (sget_map_snd t.rulesSummary.rulesets
        (fun rs => { rs with rules := jsObjReorder rs.rules }) k).trans
        (by rw [hrs])
    · exact jsObjReorder_perm rs.rules
    · intro k2
      exact sget_jsObjReorder rs.rules (h3 (k, rs) (sget_mem hrs)) k2
  · rw [et]
    have hperm := (jsObjReorder_perm (t.integrationOutputs.templates.map
      (fun p : String × IntegrationTemplate => (p.1, { p.2 with rows := p.2.rows.map (fun r : IntegrationOutputRow => { r with properties := jsObjReorder r.properties }) })))).map Prod.fst
    have e : (t.integrationOutputs.templates.map
        (fun p : String × IntegrationTemplate => (p.1, { p.2 with rows := p.2.rows.map (fun r : IntegrationOutputRow => { r with properties := jsObjReorder r.properties }) }))).map
        Prod.fst = t.integrationOutputs.templates.map Prod.fst :=
      map_fst_map_snd t.integrationOutputs.templates
        (fun tp : IntegrationTemplate => { tp with rows := tp.rows.map (fun r : IntegrationOutputRow => { r with properties := jsObjReorder r.properties }) })
    rw [e] at hperm
    exact hperm
  · intro k tp htp
    have hmem : (k, tp) ∈ t.integrationOutputs.templates := sget_mem htp
    refine ⟨{ tp with rows := tp.rows.map (fun r : IntegrationOutputRow => { r with properties := jsObjReorder r.properties }) },
      ?_, rfl, ?_⟩
    · rw [et, sget_jsObjReorder _ hkt k]
      exact (sget_map_snd t.integrationOutputs.templates
        (fun tp : IntegrationTemplate => { tp with rows := tp.rows.map (fun r : IntegrationOutputRow => { r with properties := jsObjReorder r.properties }) }) k).trans
        (by rw [htp])
    · have hall : ∀ rows : List IntegrationOutputRow,
          (∀ r ∈ rows, (r.properties.map Prod.fst).Nodup) →
          List.Forall₂ (fun r2 r =>
            r2 = { r with properties := r2.properties } ∧
            r2.properties.Perm r.properties ∧
            (∀ k2, sget r2.properties k2 = sget r.properties k2))
            (rows.map (fun r : IntegrationOutputRow => { r with properties := jsObjReorder r.properties })) rows := by
        intro rows hnd
        induction rows with
        | nil => exact List.Forall₂.nil
        | cons r rest ih =>
          refine List.Forall₂.cons ⟨rfl, jsObjReorder_perm r.properties,
            fun k2 => sget_jsObjReorder r.properties (hnd r (by simp)) k2⟩
            (ih (fun x hx => hnd x (by simp [hx])))
      exact hall tp.rows (fun r hr => h6 (k, tp) hmem r hr)

theorem c4_round_trip_witness :
    ((parseTrace "").features.map Prod.fst).Nodup ∧
    (reconstructTrace (serializeTrace (parseTrace ""))).features.Perm
      (parseTrace "").features :=
  ⟨by decide,
   (c4_round_trip (parseTrace "") (by decide) (by decide) (by decide)
     (by decide) (by decide) (by decide) (by decide)).2.1⟩
